import Mathlib

/-!
# Group metrics collector (kubeturbo, `pkg/discovery/worker/group_metrics_collector.go`)

A shallow embedding of `GroupMetricsCollector.CollectGroupMetrics` and
`GroupMetricsCollector.getGroupName`, followed by the properties of the
grouping that the specification states.

Conventions of the embedding:

* a Go `map[string]T` is a function `String → Option T` (`GoMap`);
* a `*repository.EntityGroup` is the position of the group in
  `entityGroupList`: every group is appended to that list in the statement
  that follows its allocation and the list is never reordered, so the position
  identifies the allocation; a write through a pointer is `List.modify` at
  that position;
* a Go `error` is the message string it carries.
-/

set_option autoImplicit false

namespace Kubeturbo

/-! ## Data model -/

/-- The entity types the collector uses (`metrics.PodType`, `metrics.ContainerType`). -/
inductive DiscoveredEntityType
  | PodType
  | ContainerType
  deriving DecidableEq, Repr

/-- The two entity-state properties read by `getGroupName`
(`metrics.OwnerType`, `metrics.Owner`). -/
inductive ResourceType
  | OwnerType
  | Owner
  deriving DecidableEq, Repr

/-- A metric value is a Go `interface{}`: nil, a string, or a value of another type. -/
inductive MetricValue
  | nil
  | str (s : String)
  | other (tag : Nat)
  deriving DecidableEq, Repr

/-- A stored metric. -/
structure Metric where
  value : MetricValue
  deriving DecidableEq, Repr

/-- The accessor `Metric.GetValue()`. -/
def Metric.GetValue (m : Metric) : MetricValue := m.value

/-- The Go type assertion `v.(string)` in its two-result form: the string and `true`
for a string value, the zero string and `false` otherwise. -/
def MetricValue.assertString : MetricValue → String × Bool
  | .str s => (s, true)
  | _ => ("", false)

/-- The metric store, seen through its only operation used here,
`GetMetric(id) (Metric, error)`. -/
structure EntityMetricSink where
  GetMetric : String → Except String Metric

/-- A container of a pod (`v1.Container`), with the one field read here. -/
structure Container where
  Name : String
  deriving DecidableEq, Repr

/-- The part of `v1.PodSpec` read here. -/
structure PodSpec where
  Containers : List Container
  deriving DecidableEq, Repr

/-- The part of `v1.Pod` read here. -/
structure Pod where
  UID : String
  Namespace : String
  Name : String
  Spec : PodSpec
  deriving DecidableEq, Repr

/-- The identifier functions of packages `util` and `metrics`, which the collector calls
and which are taken as parameters: `util.PodKeyFunc`, `util.ContainerIdFunc` and
`metrics.GenerateEntityStateMetricUID`. -/
structure Util where
  PodKeyFunc : Pod → String
  ContainerIdFunc : String → Nat → String
  GenerateEntityStateMetricUID : DiscoveredEntityType → String → ResourceType → String

/-- A Go `map[string]T`. -/
abbrev GoMap (β : Type) := String → Option β

/-- The empty map, `make(map[string]T)`. -/
def GoMap.empty {β : Type} : GoMap β := fun _ => none

/-- The assignment `m[k] = v`. -/
def GoMap.set {β : Type} (m : GoMap β) (k : String) (v : β) : GoMap β :=
  fun k' => if k' = k then some v else m k'

/-- Modelled from the spec: the Group record of package `repository` (`EntityGroup`), whose
declaration is outside the excerpt. It has the owner kind, the owner name (empty for a
kind-scoped group), the key, the members per member type, accumulated without
deduplication, and the sub-groups by container name (`ContainerGroups`). -/
structure EntityGroup where
  kind : String
  name : String
  key : String
  members : DiscoveredEntityType → List String
  ContainerGroups : GoMap (List String)

/-- Modelled from the spec: the constructor `repository.NewEntityGroup(kind, name, key)`,
a group with no member and no sub-group. -/
def NewEntityGroup (kind name groupId : String) : EntityGroup :=
  { kind := kind, name := name, key := groupId,
    members := fun _ => [], ContainerGroups := GoMap.empty }

/-- Modelled from the spec: the method `EntityGroup.AddMember(memberType, memberId)`, which
adds the identifier to the members of that type (appending, without deduplication). -/
def EntityGroup.AddMember (g : EntityGroup) (etype : DiscoveredEntityType)
    (member : String) : EntityGroup :=
  { g with members := fun t => if t = etype then g.members t ++ [member] else g.members t }

/-- Lines 92-94: create the bucket of `containerName` when the group has none. -/
def EntityGroup.ensureContainerGroup (g : EntityGroup) (containerName : String) :
    EntityGroup :=
  match g.ContainerGroups containerName with
  | some _ => g
  | none => { g with ContainerGroups := g.ContainerGroups.set containerName [] }

/-- Line 95: append the container id to the bucket of `containerName`
(a missing bucket reads as the nil slice). -/
def EntityGroup.appendContainerGroup (g : EntityGroup) (containerName containerId : String) :
    EntityGroup :=
  let bucket := (g.ContainerGroups containerName).getD [] ++ [containerId]
  { g with ContainerGroups := g.ContainerGroups.set containerName bucket }

/-- The collector: the pod batch and the metric store. -/
structure GroupMetricsCollector where
  PodList : List Pod
  MetricsSink : EntityMetricSink
  workerId : String

/-! ## `getGroupName` -/

/-- The method `GroupMetricsCollector.getGroupName` (lines 102-128). -/
def getGroupName (u : Util) (sink : EntityMetricSink) (etype : DiscoveredEntityType)
    (entityKey : String) : Except String (String × String) :=
  let ownerTypeMetricId := u.GenerateEntityStateMetricUID etype entityKey .OwnerType
  let ownerMetricId := u.GenerateEntityStateMetricUID etype entityKey .Owner
  match sink.GetMetric ownerTypeMetricId with
  | .error err =>
    .error ("Error getting owner type for pod " ++ entityKey ++ " --> " ++ err ++ "\n")
  | .ok ownerTypeMetric =>
    let ownerType := ownerTypeMetric.GetValue
    let (ownerTypeString, ok) := ownerType.assertString
    if !ok || ownerTypeString == "" then
      .error ("Empty owner type for pod " ++ entityKey ++ "\n")
    else
      match sink.GetMetric ownerMetricId with
      | .error err =>
        .error ("Error getting owner for pod " ++ entityKey ++ " --> " ++ err ++ "\n")
      | .ok ownerMetric =>
        let owner := ownerMetric.GetValue
        let (ownerString, ok) := owner.assertString
        if !ok || ownerString == "" then
          .error ("Empty owner for pod " ++ entityKey ++ "\n")
        else
          .ok (ownerTypeString, ownerString)

/-! ## `CollectGroupMetrics` -/

/-- The local state of `CollectGroupMetrics`: the list being built and the two maps from
a key to the group created for it. -/
structure CollectState where
  entityGroupList : List EntityGroup
  entityGroups : GoMap Nat
  entityGroupsByParentKind : GoMap Nat

/-- The state before the loop (lines 32-35). -/
def CollectState.init : CollectState :=
  { entityGroupList := [], entityGroups := GoMap.empty,
    entityGroupsByParentKind := GoMap.empty }

/-- The group key of line 49, `fmt.Sprintf("%s/%s/%s", ownerType, namespace, owner)`. -/
def groupKeyOf (ownerTypeString ns ownerString : String) : String :=
  ownerTypeString ++ "/" ++ ns ++ "/" ++ ownerString

/-- The body of the loop over the containers of a pod (lines 81-95), for the container at
index `ic.1`; `entityGroup` and `entityGroupByParentKind` are the two group pointers. -/
def containerStep (u : Util) (podId : String) (entityGroup entityGroupByParentKind : Nat)
    (l : List EntityGroup) (ic : Nat × Container) : List EntityGroup :=
  let containerId := u.ContainerIdFunc podId ic.1
  let l := l.modify (fun g => g.AddMember .ContainerType containerId) entityGroup
  let l := l.modify (fun g => g.AddMember .ContainerType containerId) entityGroupByParentKind
  let container := ic.2
  let containerName := container.Name
  let l := l.modify (fun g => g.ensureContainerGroup containerName) entityGroup
  l.modify (fun g => g.appendContainerGroup containerName containerId) entityGroup

/-- The body of the loop over the pods (lines 38-96). -/
def processPod (u : Util) (sink : EntityMetricSink) (st : CollectState) (pod : Pod) :
    CollectState :=
  let podKey := u.PodKeyFunc pod
  match getGroupName u sink .PodType podKey with
  | .error _ => st
  | .ok (ownerTypeString, ownerString) =>
    let podId := pod.UID
    let groupKey := groupKeyOf ownerTypeString pod.Namespace ownerString
    -- group1 (lines 52-56)
    let (st, entityGroup) :=
      match st.entityGroups groupKey with
      | some p => (st, p)
      | none =>
        let p := st.entityGroupList.length
        let g := NewEntityGroup ownerTypeString ownerString groupKey
        ({ st with entityGroups := st.entityGroups.set groupKey p,
                   entityGroupList := st.entityGroupList ++ [g] }, p)
    -- group2 (lines 59-63)
    let (st, entityGroupByParentKind) :=
      match st.entityGroupsByParentKind ownerTypeString with
      | some p => (st, p)
      | none =>
        let p := st.entityGroupList.length
        let g := NewEntityGroup ownerTypeString "" ownerTypeString
        ({ st with entityGroupsByParentKind := st.entityGroupsByParentKind.set ownerTypeString p,
                   entityGroupList := st.entityGroupList ++ [g] }, p)
    -- line 78
    let l := st.entityGroupList.modify (fun g => g.AddMember .PodType podId)
      entityGroupByParentKind
    -- lines 80-96
    let l := pod.Spec.Containers.enum.foldl
      (containerStep u podId entityGroup entityGroupByParentKind) l
    { st with entityGroupList := l }

/-- The method `GroupMetricsCollector.CollectGroupMetrics` (lines 31-100). -/
def CollectGroupMetrics (u : Util) (collector : GroupMetricsCollector) : List EntityGroup :=
  (collector.PodList.foldl (processPod u collector.MetricsSink) CollectState.init).entityGroupList

/-! ## Definitions used to state and prove the properties -/

/-- The owner of a pod as the loop resolves it (lines 38-39): `getGroupName` on the pod
key. -/
def ownerOf (u : Util) (sink : EntityMetricSink) (pod : Pod) : Except String (String × String) :=
  getGroupName u sink .PodType (u.PodKeyFunc pod)

/-- A pod together with its resolved owner kind and owner name. -/
structure Resolved where
  ownerKind : String
  ownerName : String
  pod : Pod
  deriving DecidableEq, Repr

/-- The resolution of one pod: its owner when `getGroupName` succeeds. -/
def resolveOne (u : Util) (sink : EntityMetricSink) (pod : Pod) : Option Resolved :=
  match ownerOf u sink pod with
  | .ok (ownerTypeString, ownerString) => some ⟨ownerTypeString, ownerString, pod⟩
  | .error _ => none

/-- The units of the batch whose owner resolves, in batch order, with their owner. -/
def resolveAll (u : Util) (sink : EntityMetricSink) (pods : List Pod) : List Resolved :=
  pods.filterMap (resolveOne u sink)

/-- The group key of a resolved unit, `kind/namespace/name`. -/
def Resolved.groupKey (r : Resolved) : String :=
  groupKeyOf r.ownerKind r.pod.Namespace r.ownerName

/-- The triple `(ownerKind, namespace, ownerName)` of a resolved unit. -/
def Resolved.triple (r : Resolved) : String × String × String :=
  (r.ownerKind, r.pod.Namespace, r.ownerName)

/-- The identifiers of the containers of a pod, by increasing index. -/
def containerIds (u : Util) (pod : Pod) : List String :=
  (List.range pod.Spec.Containers.length).map (u.ContainerIdFunc pod.UID)

/-- The identifiers of the containers of a pod whose name is `n`, by increasing index. -/
def containerIdsNamed (u : Util) (pod : Pod) (n : String) : List String :=
  (pod.Spec.Containers.enum.filter (fun ic => ic.2.Name = n)).map
    (fun ic => u.ContainerIdFunc pod.UID ic.1)

/-- A list with the later repeats of every element removed. -/
def keepFirst {α : Type} [DecidableEq α] : List α → List α
  | [] => []
  | x :: xs => x :: (keepFirst xs).filter (fun y => y ≠ x)

/-- Append an element unless the list has it already. -/
def addNew {α : Type} [DecidableEq α] (acc : List α) (x : α) : List α :=
  if x ∈ acc then acc else acc ++ [x]

/-- A group is instance-scoped when its name is not empty. -/
def EntityGroup.instanceScoped (g : EntityGroup) : Bool := g.name != ""

/-- A group is kind-scoped when its name is empty. -/
def EntityGroup.kindScoped (g : EntityGroup) : Bool := g.name == ""

/-- The scheme of a group (`true` for kind-scoped) with its key. -/
def EntityGroup.scopeTag (g : EntityGroup) : Bool × String := (g.kindScoped, g.key)

/-- What one container does to the instance-scoped group of its pod (lines 83, 92-95). -/
def instBody (u : Util) (podId : String) (g : EntityGroup) (ic : Nat × Container) :
    EntityGroup :=
  ((g.AddMember .ContainerType (u.ContainerIdFunc podId ic.1)).ensureContainerGroup
    ic.2.Name).appendContainerGroup ic.2.Name (u.ContainerIdFunc podId ic.1)

/-- What one container does to the kind-scoped group of its pod (line 84). -/
def kindBody (u : Util) (podId : String) (g : EntityGroup) (ic : Nat × Container) :
    EntityGroup :=
  g.AddMember .ContainerType (u.ContainerIdFunc podId ic.1)

/-- What a pod does to its instance-scoped group. -/
def applyInst (u : Util) (pod : Pod) (g : EntityGroup) : EntityGroup :=
  pod.Spec.Containers.enum.foldl (instBody u pod.UID) g

/-- What a pod does to its kind-scoped group. -/
def applyKind (u : Util) (pod : Pod) (g : EntityGroup) : EntityGroup :=
  pod.Spec.Containers.enum.foldl (kindBody u pod.UID) (g.AddMember .PodType pod.UID)

/-- What a resolved unit does to a group, by the scheme and key of the group. -/
def applyUnit (u : Util) (r : Resolved) (g : EntityGroup) : EntityGroup :=
  if g.scopeTag = (false, r.groupKey) then applyInst u r.pod g
  else if g.scopeTag = (true, r.ownerKind) then applyKind u r.pod g
  else g

/-- The loop body on the group list alone, with the groups found by scheme and key
instead of through the two maps. -/
def listStep (u : Util) (l : List EntityGroup) (r : Resolved) : List EntityGroup :=
  let l1 := if (false, r.groupKey) ∈ l.map EntityGroup.scopeTag then l
    else l ++ [NewEntityGroup r.ownerKind r.ownerName r.groupKey]
  let l2 := if (true, r.ownerKind) ∈ l1.map EntityGroup.scopeTag then l1
    else l1 ++ [NewEntityGroup r.ownerKind "" r.ownerKind]
  l2.map (applyUnit u r)

/-- The group list produced from the resolved units by `listStep`. -/
def listRun (u : Util) (rs : List Resolved) : List EntityGroup :=
  rs.foldl (listStep u) []

/-- The two maps point at the groups of their scheme and key, and every group of the list
is pointed at by the map of its scheme. -/
structure CollectState.WF (st : CollectState) : Prop where
  inst : ∀ k p, st.entityGroups k = some p ↔
    (st.entityGroupList.map EntityGroup.scopeTag)[p]? = some (false, k)
  kind : ∀ k p, st.entityGroupsByParentKind k = some p ↔
    (st.entityGroupList.map EntityGroup.scopeTag)[p]? = some (true, k)

/-- The scheme-and-key tags a resolved unit needs, in the order the loop creates them:
its instance-scoped group, then its kind-scoped group. -/
def unitTags (r : Resolved) : List (Bool × String) :=
  [(false, r.groupKey), (true, r.ownerKind)]

/-- The container identifiers of the resolved units of group key `key`, in batch order. -/
def instMembersOf (u : Util) (rs : List Resolved) (key : String) : List String :=
  (rs.filter (fun r => r.groupKey = key)).flatMap (fun r => containerIds u r.pod)

/-- The identifiers of the containers named `n` of the resolved units of group key `key`,
in batch order and, within a unit, by increasing index. -/
def bucketOf (u : Util) (rs : List Resolved) (key n : String) : List String :=
  (rs.filter (fun r => r.groupKey = key)).flatMap (fun r => containerIdsNamed u r.pod n)

/-- The pod identifiers of the resolved units of owner kind `kind`, in batch order. -/
def kindPodsOf (rs : List Resolved) (kind : String) : List String :=
  (rs.filter (fun r => r.ownerKind = kind)).map (fun r => r.pod.UID)

/-- The container identifiers of the resolved units of owner kind `kind`, in batch order. -/
def kindMembersOf (u : Util) (rs : List Resolved) (kind : String) : List String :=
  (rs.filter (fun r => r.ownerKind = kind)).flatMap (fun r => containerIds u r.pod)

/-- The members and sub-groups a group must have after the resolved units `rs`. -/
def GroupContent (u : Util) (rs : List Resolved) (g : EntityGroup) : Prop :=
  if g.name = "" then
    g.members .PodType = kindPodsOf rs g.key ∧
    g.members .ContainerType = kindMembersOf u rs g.key ∧
    ∀ n, g.ContainerGroups n = none
  else
    g.members .PodType = [] ∧
    g.members .ContainerType = instMembersOf u rs g.key ∧
    ∀ n, g.ContainerGroups n =
      if bucketOf u rs g.key n = [] then none else some (bucketOf u rs g.key n)

/-- The two shapes of a group: kind-scoped, with the kind as key, or instance-scoped, with
the kind, name and key of a resolved unit. -/
def GroupShape (rs : List Resolved) (g : EntityGroup) : Prop :=
  g.kind ≠ "" ∧
    ((g.name = "" ∧ g.key = g.kind) ∨
     (g.name ≠ "" ∧ ∃ r ∈ rs, r.ownerKind = g.kind ∧ r.ownerName = g.name ∧
        g.key = g.kind ++ "/" ++ r.pod.Namespace ++ "/" ++ g.name))

/-- A later state of a group: same kind, name and key, and every bucket extended at its
end. -/
def GroupExtends (g g' : EntityGroup) : Prop :=
  g'.kind = g.kind ∧ g'.name = g.name ∧ g'.key = g.key ∧
    ∀ n bucket, g.ContainerGroups n = some bucket →
      ∃ t, g'.ContainerGroups n = some (bucket ++ t)

/-- The key of an instance-scoped tag. -/
def instKeyOf (t : Bool × String) : Option String := if t.1 then none else some t.2

/-- The key of a kind-scoped tag. -/
def kindKeyOf (t : Bool × String) : Option String := if t.1 then some t.2 else none

/-- The batch without the units whose `getGroupName` call fails. -/
def resolvablePods (u : Util) (sink : EntityMetricSink) (pods : List Pod) : List Pod :=
  pods.filter (fun pod => (getGroupName u sink .PodType (u.PodKeyFunc pod)).isOk)

/-- The lookup kind of error of `getGroupName`: the message starts with
"Error getting owner" (lines 108 and 118). -/
def isLookupError (msg : String) : Bool :=
  "Error getting owner".data.isPrefixOf msg.data

/-- The empty-value kind of error of `getGroupName`: the message starts with
"Empty owner" (lines 113 and 124). -/
def isEmptyValueError (msg : String) : Bool :=
  "Empty owner".data.isPrefixOf msg.data

/-- A metric value is usable as an owner field when it is a non-empty string. -/
def MetricValue.isNonEmptyString : MetricValue → Bool
  | .str s => s != ""
  | _ => false

/-- The lookup of a metric fails (metric absent or store error). -/
def EntityMetricSink.lookupFails (sink : EntityMetricSink) (id : String) : Bool :=
  match sink.GetMetric id with
  | .ok _ => false
  | .error _ => true

/-- The lookup of a metric succeeds with a value that is missing, not a string, or the
empty string. -/
def EntityMetricSink.valueUnusable (sink : EntityMetricSink) (id : String) : Bool :=
  match sink.GetMetric id with
  | .ok m => !m.GetValue.isNonEmptyString
  | .error _ => false

/-- The message of the error of a failed call, if it failed. -/
def errorOf {α : Type} : Except String α → Option String
  | .ok _ => none
  | .error msg => some msg

/-! ## Concrete inputs -/

/-- Identifier functions in the style of the repository: the pod key is
`namespace/name`, a container id is `podId-index`, a metric id is `type-key-property`. -/
def sampleUtil : Util :=
  { PodKeyFunc := fun pod => pod.Namespace ++ "/" ++ pod.Name
    ContainerIdFunc := fun podId i => podId ++ "-" ++ toString i
    GenerateEntityStateMetricUID := fun etype key prop =>
      (match etype with
        | .PodType => "Pod"
        | .ContainerType => "Container") ++ "-" ++ key ++ "-" ++
      (match prop with
        | .OwnerType => "OwnerType"
        | .Owner => "Owner") }

/-- A metric store holding the given entries; any other identifier is an error. -/
def sinkOf (entries : List (String × MetricValue)) : EntityMetricSink :=
  { GetMetric := fun id =>
      match entries.lookup id with
      | some v => .ok ⟨v⟩
      | none => .error "metric not found" }

/-- The store of the example batch: pod1 and pod2 owned by ReplicaSet rs-a, pod3 owned by
DaemonSet ds-b, pod4 with an empty owner, pod5 with no owner metrics. -/
def sampleSink : EntityMetricSink :=
  sinkOf
    [("Pod-ns1/pod1-OwnerType", .str "ReplicaSet"), ("Pod-ns1/pod1-Owner", .str "rs-a"),
     ("Pod-ns1/pod2-OwnerType", .str "ReplicaSet"), ("Pod-ns1/pod2-Owner", .str "rs-a"),
     ("Pod-ns1/pod3-OwnerType", .str "DaemonSet"), ("Pod-ns1/pod3-Owner", .str "ds-b"),
     ("Pod-ns1/pod4-OwnerType", .str "Job"), ("Pod-ns1/pod4-Owner", .str "")]

/-- The example batch, in order pod1 (containers c1, c2), pod4, pod2 (container c1),
pod5, pod3 (no container). -/
def samplePods : List Pod :=
  [⟨"uid1", "ns1", "pod1", ⟨[⟨"c1"⟩, ⟨"c2"⟩]⟩⟩,
   ⟨"uid4", "ns1", "pod4", ⟨[⟨"c1"⟩]⟩⟩,
   ⟨"uid2", "ns1", "pod2", ⟨[⟨"c1"⟩]⟩⟩,
   ⟨"uid5", "ns1", "pod5", ⟨[⟨"c9"⟩]⟩⟩,
   ⟨"uid3", "ns1", "pod3", ⟨[]⟩⟩]

/-- The collector of the example batch. -/
def sampleCollector : GroupMetricsCollector :=
  { PodList := samplePods, MetricsSink := sampleSink, workerId := "w0" }

/-- A collector whose two pods have different owner triples, `(a/b, c, d)` and
`(a, b/c, d)`, with the same group key `a/b/c/d`. -/
def sameKeyCollector : GroupMetricsCollector :=
  { PodList := [⟨"uid1", "c", "p1", ⟨[]⟩⟩, ⟨"uid2", "b/c", "p2", ⟨[]⟩⟩]
    MetricsSink := sinkOf
      [("Pod-c/p1-OwnerType", .str "a/b"), ("Pod-c/p1-Owner", .str "d"),
       ("Pod-b/c/p2-OwnerType", .str "a"), ("Pod-b/c/p2-Owner", .str "d")]
    workerId := "w0" }

/-- A collector in which the instance-scoped key of the first pod, `a/b/c`, is the owner
kind of the second pod. -/
def crossKeyCollector : GroupMetricsCollector :=
  { PodList := [⟨"uid1", "b", "p1", ⟨[]⟩⟩, ⟨"uid2", "x", "p2", ⟨[]⟩⟩]
    MetricsSink := sinkOf
      [("Pod-b/p1-OwnerType", .str "a"), ("Pod-b/p1-Owner", .str "c"),
       ("Pod-x/p2-OwnerType", .str "a/b/c"), ("Pod-x/p2-Owner", .str "y")]
    workerId := "w0" }

/-- A store in which the owner type of pod `ns1/pod4` is the empty string and its owner
metric is absent. -/
def emptyTypeNoOwnerSink : EntityMetricSink :=
  sinkOf [("Pod-ns1/pod4-OwnerType", .str "")]

/-- The first pod of the example of the specification: in `ns1`, containers `c1`, `c2`. -/
def examplePod1 : Pod := ⟨"uid1", "ns1", "pod1", ⟨[⟨"c1"⟩, ⟨"c2"⟩]⟩⟩

/-- The second pod of the example of the specification: in `ns1`, container `c1`. -/
def examplePod2 : Pod := ⟨"uid2", "ns1", "pod2", ⟨[⟨"c1"⟩]⟩⟩

/-- The third pod of the example of the specification: in `ns1`, no container. -/
def examplePod3 : Pod := ⟨"uid3", "ns1", "pod3", ⟨[]⟩⟩

/-- The batch of the example of the specification. -/
def exampleBatch : List Pod := [examplePod1, examplePod2, examplePod3]

/-! ## Properties -/

/-! ### `getGroupName` -/

theorem getGroupName_ok_iff (u : Util) (sink : EntityMetricSink) (etype : DiscoveredEntityType)
    (entityKey ownerTypeString ownerString : String) :
    getGroupName u sink etype entityKey = .ok (ownerTypeString, ownerString) ↔
      (sink.GetMetric (u.GenerateEntityStateMetricUID etype entityKey .OwnerType)
          = .ok ⟨.str ownerTypeString⟩ ∧ ownerTypeString ≠ "" ∧
        sink.GetMetric (u.GenerateEntityStateMetricUID etype entityKey .Owner)
          = .ok ⟨.str ownerString⟩ ∧ ownerString ≠ "") := by
  rcases h1 : sink.GetMetric (u.GenerateEntityStateMetricUID etype entityKey .OwnerType)
    with e | ⟨v1⟩
  · simp [getGroupName, h1]
  · rcases h2 : sink.GetMetric (u.GenerateEntityStateMetricUID etype entityKey .Owner)
      with e | ⟨v2⟩
    · rcases v1 with _ | a | t <;>
        simp [getGroupName, h1, h2, Metric.GetValue, MetricValue.assertString]
      split <;> simp
    · rcases v1 with _ | a | t
      · simp [getGroupName, h1, h2, Metric.GetValue, MetricValue.assertString]
      · rcases v2 with _ | b | t2
        · simp [getGroupName, h1, h2, Metric.GetValue, MetricValue.assertString]
          split <;> simp
        · simp [getGroupName, h1, h2, Metric.GetValue, MetricValue.assertString]
          by_cases ha : a = ""
          · simp [ha]
            rintro rfl
            simp
          · by_cases hb : b = ""
            · simp [ha, hb]
              rintro rfl _ rfl
              rfl
            · simp [ha, hb]
              rintro rfl
              constructor
              · rintro rfl
                exact ⟨ha, rfl, hb⟩
              · exact fun h => h.2.1
        · simp [getGroupName, h1, h2, Metric.GetValue, MetricValue.assertString]
          split <;> simp
      · simp [getGroupName, h1, h2, Metric.GetValue, MetricValue.assertString]

theorem resolveOne_eq_some {u : Util} {sink : EntityMetricSink} {pod : Pod} {r : Resolved} :
    resolveOne u sink pod = some r ↔
      ownerOf u sink pod = .ok (r.ownerKind, r.ownerName) ∧ r.pod = pod := by
  unfold resolveOne
  rcases r with ⟨k, n, p⟩
  rcases h : ownerOf u sink pod with e | ⟨a, b⟩
  · simp
  · simp
    constructor
    · rintro ⟨rfl, rfl, rfl⟩
      exact ⟨⟨rfl, rfl⟩, rfl⟩
    · rintro ⟨⟨rfl, rfl⟩, rfl⟩
      exact ⟨rfl, rfl, rfl⟩

theorem resolveOne_eq_none {u : Util} {sink : EntityMetricSink} {pod : Pod} :
    resolveOne u sink pod = none ↔ ∃ e, ownerOf u sink pod = .error e := by
  unfold resolveOne
  rcases h : ownerOf u sink pod with e | ⟨a, b⟩ <;> simp

theorem ownerOf_ne_empty {u : Util} {sink : EntityMetricSink} {pod : Pod} {k n : String}
    (h : ownerOf u sink pod = .ok (k, n)) : k ≠ "" ∧ n ≠ "" := by
  have := (getGroupName_ok_iff u sink _ _ k n).1 h
  exact ⟨this.2.1, this.2.2.2⟩

theorem mem_resolveAll {u : Util} {sink : EntityMetricSink} {pods : List Pod} {r : Resolved} :
    r ∈ resolveAll u sink pods ↔
      r.pod ∈ pods ∧ ownerOf u sink r.pod = .ok (r.ownerKind, r.ownerName) := by
  simp only [resolveAll, List.mem_filterMap, resolveOne_eq_some]
  constructor
  · rintro ⟨p, hp, h, rfl⟩
    exact ⟨hp, h⟩
  · rintro ⟨hp, h⟩
    exact ⟨r.pod, hp, h, rfl⟩

theorem resolveAll_ne_empty {u : Util} {sink : EntityMetricSink} {pods : List Pod}
    {r : Resolved} (h : r ∈ resolveAll u sink pods) : r.ownerKind ≠ "" ∧ r.ownerName ≠ "" :=
  ownerOf_ne_empty (mem_resolveAll.1 h).2

/-! ### Tags of the updated groups -/

@[simp] theorem scopeTag_AddMember (g : EntityGroup) (t : DiscoveredEntityType) (m : String) :
    (g.AddMember t m).scopeTag = g.scopeTag := rfl

@[simp] theorem scopeTag_ensureContainerGroup (g : EntityGroup) (n : String) :
    (g.ensureContainerGroup n).scopeTag = g.scopeTag := by
  unfold EntityGroup.ensureContainerGroup
  split <;> rfl

@[simp] theorem scopeTag_appendContainerGroup (g : EntityGroup) (n c : String) :
    (g.appendContainerGroup n c).scopeTag = g.scopeTag := rfl

@[simp] theorem scopeTag_instBody (u : Util) (podId : String) (g : EntityGroup)
    (ic : Nat × Container) : (instBody u podId g ic).scopeTag = g.scopeTag := by
  simp [instBody]

@[simp] theorem scopeTag_kindBody (u : Util) (podId : String) (g : EntityGroup)
    (ic : Nat × Container) : (kindBody u podId g ic).scopeTag = g.scopeTag := by
  simp [kindBody]

theorem scopeTag_foldl_instBody (u : Util) (podId : String) (ics : List (Nat × Container))
    (g : EntityGroup) : (ics.foldl (instBody u podId) g).scopeTag = g.scopeTag := by
  induction ics generalizing g with
  | nil => rfl
  | cons ic ics ih => simp [ih]

theorem scopeTag_foldl_kindBody (u : Util) (podId : String) (ics : List (Nat × Container))
    (g : EntityGroup) : (ics.foldl (kindBody u podId) g).scopeTag = g.scopeTag := by
  induction ics generalizing g with
  | nil => rfl
  | cons ic ics ih => simp [ih]

@[simp] theorem scopeTag_applyInst (u : Util) (pod : Pod) (g : EntityGroup) :
    (applyInst u pod g).scopeTag = g.scopeTag :=
  scopeTag_foldl_instBody u pod.UID _ g

@[simp] theorem scopeTag_applyKind (u : Util) (pod : Pod) (g : EntityGroup) :
    (applyKind u pod g).scopeTag = g.scopeTag := by
  simp [applyKind, scopeTag_foldl_kindBody]

@[simp] theorem scopeTag_applyUnit (u : Util) (r : Resolved) (g : EntityGroup) :
    (applyUnit u r g).scopeTag = g.scopeTag := by
  unfold applyUnit
  split
  · simp
  · split <;> simp

theorem scopeTag_New_inst {k n key : String} (hn : n ≠ "") :
    (NewEntityGroup k n key).scopeTag = (false, key) := by
  simp [NewEntityGroup, EntityGroup.scopeTag, EntityGroup.kindScoped, hn]

theorem scopeTag_New_kind (k key : String) :
    (NewEntityGroup k "" key).scopeTag = (true, key) := by
  simp [NewEntityGroup, EntityGroup.scopeTag, EntityGroup.kindScoped]

/-! ### The container loop acts on the two pointed groups only -/

theorem getElem?_containerStep (u : Util) (podId : String) {p1 p2 : Nat} (hne : p1 ≠ p2)
    (l : List EntityGroup) (ic : Nat × Container) (q : Nat) :
    (containerStep u podId p1 p2 l ic)[q]? =
      (l[q]?).map (fun g => if q = p1 then instBody u podId g ic
        else if q = p2 then kindBody u podId g ic else g) := by
  simp only [containerStep, List.getElem?_modify]
  rcases l[q]? with _ | g
  · simp
  · by_cases h1 : p1 = q
    · subst h1
      have : ¬ p2 = p1 := fun h => hne h.symm
      simp [this, instBody]
    · have h1' : ¬ q = p1 := fun h => h1 h.symm
      by_cases h2 : p2 = q
      · subst h2
        simp [h1, h1', kindBody]
      · have h2' : ¬ q = p2 := fun h => h2 h.symm
        simp [h1, h2, h1', h2']

theorem getElem?_foldl_containerStep (u : Util) (podId : String) {p1 p2 : Nat} (hne : p1 ≠ p2)
    (ics : List (Nat × Container)) (l : List EntityGroup) (q : Nat) :
    (ics.foldl (containerStep u podId p1 p2) l)[q]? =
      (l[q]?).map (fun g => if q = p1 then ics.foldl (instBody u podId) g
        else if q = p2 then ics.foldl (kindBody u podId) g else g) := by
  induction ics generalizing l with
  | nil => simp
  | cons ic ics ih =>
    rw [List.foldl_cons, ih, getElem?_containerStep u podId hne]
    rcases l[q]? with _ | g
    · simp
    · by_cases h1 : q = p1
      · simp [h1]
      · by_cases h2 : q = p2
        · subst h2
          simp [h1]
        · simp [h1, h2]

/-! ### The two maps and the list stay consistent -/

theorem tags_set_append {tags : List (Bool × String)} {m : GoMap Nat} {s : Bool} {key : String}
    (h : ∀ k p, m k = some p ↔ tags[p]? = some (s, k)) (hn : m key = none) :
    ∀ k p, (m.set key tags.length) k = some p ↔ (tags ++ [(s, key)])[p]? = some (s, k) := by
  intro k p
  unfold GoMap.set
  rw [List.getElem?_append]
  by_cases hp : p < tags.length
  · simp only [hp, if_true]
    by_cases hk : k = key
    · subst hk
      simp only [if_true]
      constructor
      · intro hh
        have : tags.length = p := by simpa using hh
        omega
      · intro hh
        rw [(h k p).2 hh] at hn
        exact absurd hn (by simp)
    · simp only [hk, if_false]
      exact h k p
  · simp only [hp, if_false]
    have hnone : tags[p]? = none := List.getElem?_eq_none (by omega)
    by_cases hk : k = key
    · subst hk
      simp only [if_true]
      constructor
      · intro hh
        have : tags.length = p := by simpa using hh
        subst this
        simp
      · intro hh
        by_cases hpe : p = tags.length
        · simp [hpe]
        · have : [(s, k)][p - tags.length]? = none :=
            List.getElem?_eq_none (by simp; omega)
          rw [this] at hh
          exact absurd hh (by simp)
    · simp only [hk, if_false]
      constructor
      · intro hh
        rw [(h k p).1 hh] at hnone
        exact absurd hnone (by simp)
      · intro hh
        by_cases hpe : p = tags.length
        · subst hpe
          simp at hh
          exact absurd hh.symm hk
        · have : [(s, key)][p - tags.length]? = none :=
            List.getElem?_eq_none (by simp; omega)
          rw [this] at hh
          exact absurd hh (by simp)

theorem tags_append_other {tags : List (Bool × String)} {m : GoMap Nat} {s s' : Bool}
    (key : String) (hs : s ≠ s') (h : ∀ k p, m k = some p ↔ tags[p]? = some (s', k)) :
    ∀ k p, m k = some p ↔ (tags ++ [(s, key)])[p]? = some (s', k) := by
  intro k p
  rw [List.getElem?_append]
  by_cases hp : p < tags.length
  · simp only [hp, if_true]
    exact h k p
  · simp only [hp, if_false]
    have hnone : tags[p]? = none := List.getElem?_eq_none (by omega)
    constructor
    · intro hh
      rw [(h k p).1 hh] at hnone
      exact absurd hnone (by simp)
    · intro hh
      by_cases hpe : p = tags.length
      · subst hpe
        simp at hh
        exact absurd hh.1 hs
      · have : [(s, key)][p - tags.length]? = none :=
          List.getElem?_eq_none (by simp; omega)
        rw [this] at hh
        exact absurd hh (by simp)

theorem mem_tags_iff {tags : List (Bool × String)} {m : GoMap Nat} {s : Bool}
    (h : ∀ k p, m k = some p ↔ tags[p]? = some (s, k)) (key : String) :
    (s, key) ∈ tags ↔ ∃ p, m key = some p := by
  rw [List.mem_iff_getElem?]
  constructor
  · rintro ⟨p, hp⟩
    exact ⟨p, (h key p).2 hp⟩
  · rintro ⟨p, hp⟩
    exact ⟨p, (h key p).1 hp⟩

theorem foldl_containerStep_eq_map (u : Util) (r : Resolved) (l2 : List EntityGroup)
    (p1 p2 : Nat)
    (h1 : ∀ q, (l2.map EntityGroup.scopeTag)[q]? = some (false, r.groupKey) ↔ q = p1)
    (h2 : ∀ q, (l2.map EntityGroup.scopeTag)[q]? = some (true, r.ownerKind) ↔ q = p2) :
    r.pod.Spec.Containers.enum.foldl (containerStep u r.pod.UID p1 p2)
        (l2.modify (fun g => g.AddMember .PodType r.pod.UID) p2) =
      l2.map (applyUnit u r) := by
  have hne : p1 ≠ p2 := by
    intro heq
    have a := (h1 p1).2 rfl
    have b := (h2 p1).2 heq
    rw [a] at b
    simp at b
  apply List.ext_getElem?
  intro q
  rw [getElem?_foldl_containerStep u r.pod.UID hne, List.getElem?_modify, List.getElem?_map]
  have h1q := h1 q
  have h2q := h2 q
  rw [List.getElem?_map] at h1q h2q
  rcases hg : l2[q]? with _ | g
  · simp
  · rw [hg] at h1q h2q
    simp only [Option.map_some', Option.some.injEq] at h1q h2q
    simp only [Option.map_some', Option.some.injEq, Functor.map, applyUnit]
    by_cases hq1 : q = p1
    · have : p2 ≠ q := fun h => hne (hq1 ▸ h.symm)
      simp [hq1, h1q.2 hq1, applyInst, this, hne.symm]
    · have hq1' : ¬ g.scopeTag = (false, r.groupKey) := fun h => hq1 (h1q.1 h)
      by_cases hq2 : q = p2
      · simp [hq1, hq1', h2q.2 hq2, applyKind, hq2, hne.symm]
      · have hq2' : ¬ g.scopeTag = (true, r.ownerKind) := fun h => hq2 (h2q.1 h)
        have : ¬ p2 = q := fun h => hq2 h.symm
        simp [hq1, hq2, hq1', hq2', this]

theorem map_scopeTag_map_applyUnit (u : Util) (r : Resolved) (l : List EntityGroup) :
    (l.map (applyUnit u r)).map EntityGroup.scopeTag = l.map EntityGroup.scopeTag := by
  simp [List.map_map, Function.comp_def]

theorem processPod_error {u : Util} {sink : EntityMetricSink} {st : CollectState} {pod : Pod}
    {e : String} (h : ownerOf u sink pod = .error e) : processPod u sink st pod = st := by
  have h' : getGroupName u sink .PodType (u.PodKeyFunc pod) = .error e := h
  simp [processPod, h']

theorem WF_append_inst {st : CollectState} (hwf : st.WF) {k n gk : String}
    (hm : st.entityGroups gk = none) (hn : n ≠ "") :
    CollectState.WF ⟨st.entityGroupList ++ [NewEntityGroup k n gk],
      st.entityGroups.set gk st.entityGroupList.length, st.entityGroupsByParentKind⟩ := by
  constructor
  · intro k' p
    have := tags_set_append hwf.inst hm k' p
    simpa [scopeTag_New_inst hn] using this
  · intro k' p
    have := tags_append_other (s := false) gk (by decide) hwf.kind k' p
    simpa [scopeTag_New_inst hn] using this

theorem WF_append_kind {st : CollectState} (hwf : st.WF) {k : String}
    (hm : st.entityGroupsByParentKind k = none) :
    CollectState.WF ⟨st.entityGroupList ++ [NewEntityGroup k "" k],
      st.entityGroups, st.entityGroupsByParentKind.set k st.entityGroupList.length⟩ := by
  constructor
  · intro k' p
    have := tags_append_other (s := true) k (by decide) hwf.inst k' p
    simpa [scopeTag_New_kind] using this
  · intro k' p
    have := tags_set_append hwf.kind hm k' p
    simpa [scopeTag_New_kind] using this

theorem WF_finish (u : Util) (r : Resolved) {st2 : CollectState} (hwf : st2.WF) (p1 p2 : Nat)
    (h1 : st2.entityGroups r.groupKey = some p1)
    (h2 : st2.entityGroupsByParentKind r.ownerKind = some p2) :
    CollectState.WF ⟨r.pod.Spec.Containers.enum.foldl (containerStep u r.pod.UID p1 p2)
        (st2.entityGroupList.modify (fun g => g.AddMember .PodType r.pod.UID) p2),
      st2.entityGroups, st2.entityGroupsByParentKind⟩ ∧
    r.pod.Spec.Containers.enum.foldl (containerStep u r.pod.UID p1 p2)
        (st2.entityGroupList.modify (fun g => g.AddMember .PodType r.pod.UID) p2) =
      st2.entityGroupList.map (applyUnit u r) := by
  have key := foldl_containerStep_eq_map u r st2.entityGroupList p1 p2
    (fun q => by
      rw [← hwf.inst]
      constructor
      · intro h
        rw [h1] at h
        exact (Option.some.inj h).symm
      · rintro rfl
        exact h1)
    (fun q => by
      rw [← hwf.kind]
      constructor
      · intro h
        rw [h2] at h
        exact (Option.some.inj h).symm
      · rintro rfl
        exact h2)
  refine ⟨?_, key⟩
  rw [key]
  constructor
  · intro k p
    simp only [map_scopeTag_map_applyUnit]
    exact hwf.inst k p
  · intro k p
    simp only [map_scopeTag_map_applyUnit]
    exact hwf.kind k p

theorem processPod_ok {u : Util} {sink : EntityMetricSink} {st : CollectState} {pod : Pod}
    {r : Resolved} (hwf : st.WF) (h : resolveOne u sink pod = some r) :
    (processPod u sink st pod).WF ∧
      (processPod u sink st pod).entityGroupList = listStep u st.entityGroupList r := by
  obtain ⟨hown, hpod⟩ := resolveOne_eq_some.1 h
  obtain ⟨hk, hn⟩ := ownerOf_ne_empty hown
  rcases r with ⟨k, n, pod'⟩
  simp only at hown hpod hk hn
  subst hpod
  have h' : getGroupName u sink .PodType (u.PodKeyFunc pod') = .ok (k, n) := hown
  have e1 := mem_tags_iff hwf.inst (groupKeyOf k pod'.Namespace n)
  rcases hm1 : st.entityGroups (groupKeyOf k pod'.Namespace n) with _ | p1 <;>
  rcases hm2 : st.entityGroupsByParentKind k with _ | p2
  · simp only [processPod, h', hm1, hm2]
    have wf1 := WF_append_inst (k := k) hwf hm1 hn
    have wf2 := WF_append_kind wf1 hm2
    have e2 := mem_tags_iff wf1.kind k
    have fin := WF_finish u ⟨k, n, pod'⟩ wf2 st.entityGroupList.length
      (st.entityGroupList ++ [NewEntityGroup k n (groupKeyOf k pod'.Namespace n)]).length
      (by simp [GoMap.set, Resolved.groupKey]) (by simp [GoMap.set])
    refine ⟨fin.1, fin.2.trans ?_⟩
    dsimp only at e2
    have n1 : (false, groupKeyOf k pod'.Namespace n) ∉
        st.entityGroupList.map EntityGroup.scopeTag := fun hmem => by
      obtain ⟨p, hp⟩ := e1.1 hmem
      rw [hm1] at hp
      cases hp
    have n2 : (true, k) ∉ (st.entityGroupList ++
        [NewEntityGroup k n (groupKeyOf k pod'.Namespace n)]).map EntityGroup.scopeTag :=
      fun hmem => by
        obtain ⟨p, hp⟩ := e2.1 hmem
        rw [hm2] at hp
        cases hp
    simp only [listStep, Resolved.groupKey, if_neg n1, if_neg n2]
  · simp only [processPod, h', hm1, hm2]
    have wf1 := WF_append_inst (k := k) hwf hm1 hn
    have e2 := mem_tags_iff wf1.kind k
    have fin := WF_finish u ⟨k, n, pod'⟩ wf1 st.entityGroupList.length p2
      (by simp [GoMap.set, Resolved.groupKey]) hm2
    refine ⟨fin.1, fin.2.trans ?_⟩
    dsimp only at e2
    have n1 : (false, groupKeyOf k pod'.Namespace n) ∉
        st.entityGroupList.map EntityGroup.scopeTag := fun hmem => by
      obtain ⟨p, hp⟩ := e1.1 hmem
      rw [hm1] at hp
      cases hp
    have y2 : (true, k) ∈ (st.entityGroupList ++
        [NewEntityGroup k n (groupKeyOf k pod'.Namespace n)]).map EntityGroup.scopeTag :=
      e2.2 ⟨p2, hm2⟩
    simp only [listStep, Resolved.groupKey, if_neg n1, if_pos y2]
  · simp only [processPod, h', hm1, hm2]
    have wf2 := WF_append_kind hwf hm2
    have e2 := mem_tags_iff hwf.kind k
    have fin := WF_finish u ⟨k, n, pod'⟩ wf2 p1 st.entityGroupList.length
      hm1 (by simp [GoMap.set])
    refine ⟨fin.1, fin.2.trans ?_⟩
    have y1 : (false, groupKeyOf k pod'.Namespace n) ∈
        st.entityGroupList.map EntityGroup.scopeTag := e1.2 ⟨p1, hm1⟩
    have n2 : (true, k) ∉ st.entityGroupList.map EntityGroup.scopeTag := fun hmem => by
      obtain ⟨p, hp⟩ := e2.1 hmem
      rw [hm2] at hp
      cases hp
    simp only [listStep, Resolved.groupKey, if_pos y1, if_neg n2]
  · simp only [processPod, h', hm1, hm2]
    have e2 := mem_tags_iff hwf.kind k
    have fin := WF_finish u ⟨k, n, pod'⟩ hwf p1 p2 hm1 hm2
    refine ⟨fin.1, fin.2.trans ?_⟩
    have y1 : (false, groupKeyOf k pod'.Namespace n) ∈
        st.entityGroupList.map EntityGroup.scopeTag := e1.2 ⟨p1, hm1⟩
    have y2 : (true, k) ∈ st.entityGroupList.map EntityGroup.scopeTag := e2.2 ⟨p2, hm2⟩
    simp only [listStep, Resolved.groupKey, if_pos y1, if_pos y2]

theorem WF_init : CollectState.init.WF := by
  constructor <;> intro k p <;> simp [CollectState.init, GoMap.empty]

theorem foldl_processPod (u : Util) (sink : EntityMetricSink) (pods : List Pod)
    (st : CollectState) (hwf : st.WF) :
    (pods.foldl (processPod u sink) st).WF ∧
      (pods.foldl (processPod u sink) st).entityGroupList =
        (resolveAll u sink pods).foldl (listStep u) st.entityGroupList := by
  induction pods generalizing st with
  | nil => exact ⟨hwf, rfl⟩
  | cons pod pods ih =>
    rw [List.foldl_cons]
    rcases hr : resolveOne u sink pod with _ | r
    · obtain ⟨e, he⟩ := resolveOne_eq_none.1 hr
      rw [processPod_error he]
      simpa [resolveAll, List.filterMap_cons, hr] using ih st hwf
    · obtain ⟨hwf', hl⟩ := processPod_ok hwf hr
      have := ih _ hwf'
      rw [hl] at this
      simpa [resolveAll, List.filterMap_cons, hr] using this

/-- The collector computes the list-level fold over the resolved units. -/
theorem CollectGroupMetrics_eq_listRun (u : Util) (c : GroupMetricsCollector) :
    CollectGroupMetrics u c = listRun u (resolveAll u c.MetricsSink c.PodList) :=
  (foldl_processPod u c.MetricsSink c.PodList CollectState.init WF_init).2

theorem listRun_append_singleton (u : Util) (rs : List Resolved) (r : Resolved) :
    listRun u (rs ++ [r]) = listStep u (listRun u rs) r := by
  simp [listRun, List.foldl_append]

/-! ### Lists without later repeats -/

theorem foldl_addNew_eq {α : Type} [DecidableEq α] (xs acc : List α) :
    xs.foldl addNew acc = acc ++ (keepFirst xs).filter (fun y => y ∉ acc) := by
  induction xs generalizing acc with
  | nil => simp [keepFirst]
  | cons x xs ih =>
    rw [List.foldl_cons, ih]
    unfold addNew
    by_cases hx : x ∈ acc
    · simp only [hx, if_true, keepFirst]
      congr 1
      rw [List.filter_cons]
      simp only [hx, not_true_eq_false, decide_False, Bool.false_eq_true, if_false]
      rw [List.filter_filter]
      apply List.filter_congr
      intro y _
      by_cases hy : y ∈ acc
      · simp [hy]
      · have : y ≠ x := fun h => hy (h ▸ hx)
        simp [hy, this]
    · simp only [hx, if_false, keepFirst]
      rw [List.filter_cons]
      simp only [hx, not_false_eq_true, decide_True, if_true]
      rw [List.filter_filter, List.append_assoc, List.singleton_append]
      congr 2
      apply List.filter_congr
      intro y _
      by_cases hy : y ∈ acc <;> by_cases hyx : y = x <;> simp [hy, hyx]

theorem foldl_addNew_nil {α : Type} [DecidableEq α] (xs : List α) :
    xs.foldl addNew [] = keepFirst xs := by
  rw [foldl_addNew_eq]
  simp

theorem mem_keepFirst {α : Type} [DecidableEq α] {xs : List α} {a : α} :
    a ∈ keepFirst xs ↔ a ∈ xs := by
  induction xs with
  | nil => simp [keepFirst]
  | cons x xs ih =>
    simp only [keepFirst, List.mem_cons, List.mem_filter, ih]
    by_cases h : a = x <;> simp [h]

theorem nodup_keepFirst {α : Type} [DecidableEq α] (xs : List α) : (keepFirst xs).Nodup := by
  induction xs with
  | nil => simp [keepFirst]
  | cons x xs ih =>
    simp only [keepFirst, List.nodup_cons]
    exact ⟨by simp [List.mem_filter], ih.filter _⟩

theorem length_keepFirst {α : Type} [DecidableEq α] (xs : List α) :
    (keepFirst xs).length = xs.toFinset.card := by
  rw [← List.toFinset_card_of_nodup (nodup_keepFirst xs)]
  congr 1
  ext a
  simp [mem_keepFirst]

theorem foldl_addNew_filterMap {α β : Type} [DecidableEq α] [DecidableEq β] (f : α → Option β)
    (hf : ∀ x y b, f x = some b → f y = some b → x = y) (xs acc : List α) :
    (xs.foldl addNew acc).filterMap f = (xs.filterMap f).foldl addNew (acc.filterMap f) := by
  induction xs generalizing acc with
  | nil => simp
  | cons x xs ih =>
    rw [List.foldl_cons, ih, List.filterMap_cons]
    rcases hx : f x with _ | b
    · simp only
      congr 1
      unfold addNew
      split
      · rfl
      · simp [List.filterMap_append, hx]
    · simp only [List.foldl_cons]
      congr 1
      unfold addNew
      have hmem : x ∈ acc ↔ b ∈ acc.filterMap f := by
        rw [List.mem_filterMap]
        constructor
        · intro h
          exact ⟨x, h, hx⟩
        · rintro ⟨y, hy, hfy⟩
          rw [hf x y b hx hfy]
          exact hy
      by_cases h : x ∈ acc
      · simp [h, hmem.1 h]
      · have h' : b ∉ acc.filterMap f := fun hb => h (hmem.2 hb)
        simp only [h, h', if_false]
        simp [List.filterMap_append, hx]

theorem keepFirst_filterMap {α β : Type} [DecidableEq α] [DecidableEq β] (f : α → Option β)
    (hf : ∀ x y b, f x = some b → f y = some b → x = y) (xs : List α) :
    (keepFirst xs).filterMap f = keepFirst (xs.filterMap f) := by
  rw [← foldl_addNew_nil, foldl_addNew_filterMap f hf, List.filterMap_nil, foldl_addNew_nil]

/-! ### Scheme and key of the groups, in creation order -/

theorem map_scopeTag_ite (l : List EntityGroup) (t : Bool × String) (g : EntityGroup)
    (hg : g.scopeTag = t) :
    (if t ∈ l.map EntityGroup.scopeTag then l else l ++ [g]).map EntityGroup.scopeTag =
      addNew (l.map EntityGroup.scopeTag) t := by
  unfold addNew
  split
  · rfl
  · simp [hg]

theorem map_scopeTag_listStep (u : Util) (l : List EntityGroup) (r : Resolved)
    (hn : r.ownerName ≠ "") :
    (listStep u l r).map EntityGroup.scopeTag =
      addNew (addNew (l.map EntityGroup.scopeTag) (false, r.groupKey)) (true, r.ownerKind) := by
  unfold listStep
  simp only [map_scopeTag_map_applyUnit]
  rw [map_scopeTag_ite _ _ _ (scopeTag_New_kind _ _),
    map_scopeTag_ite _ _ _ (scopeTag_New_inst hn)]

theorem map_scopeTag_foldl_listStep (u : Util) (rs : List Resolved)
    (hn : ∀ r ∈ rs, r.ownerName ≠ "") (l : List EntityGroup) :
    (rs.foldl (listStep u) l).map EntityGroup.scopeTag =
      (rs.flatMap unitTags).foldl addNew (l.map EntityGroup.scopeTag) := by
  induction rs generalizing l with
  | nil => rfl
  | cons r rs ih =>
    rw [List.foldl_cons, ih (fun r' hr' => hn r' (List.mem_cons_of_mem _ hr')),
      map_scopeTag_listStep u l r (hn r (List.mem_cons_self _ _))]
    simp [List.flatMap_cons, unitTags]

theorem map_scopeTag_listRun (u : Util) (rs : List Resolved)
    (hn : ∀ r ∈ rs, r.ownerName ≠ "") :
    (listRun u rs).map EntityGroup.scopeTag = keepFirst (rs.flatMap unitTags) := by
  unfold listRun
  rw [map_scopeTag_foldl_listStep u rs hn, List.map_nil, foldl_addNew_nil]

/-! ### What a unit does to its two groups -/

theorem foldl_kindBody_fields (u : Util) (podId : String) (ics : List (Nat × Container))
    (g : EntityGroup) :
    let g' := ics.foldl (kindBody u podId) g
    g'.kind = g.kind ∧ g'.name = g.name ∧ g'.key = g.key ∧
      g'.ContainerGroups = g.ContainerGroups ∧
      g'.members .PodType = g.members .PodType ∧
      g'.members .ContainerType =
        g.members .ContainerType ++ ics.map (fun ic => u.ContainerIdFunc podId ic.1) := by
  induction ics generalizing g with
  | nil => simp
  | cons ic ics ih =>
    have := ih (kindBody u podId g ic)
    simp only [List.foldl_cons, List.map_cons]
    obtain ⟨h1, h2, h3, h4, h5, h6⟩ := this
    refine ⟨h1, h2, h3, h4, ?_, ?_⟩
    · rw [h5]
      simp [kindBody, EntityGroup.AddMember]
    · rw [h6]
      simp [kindBody, EntityGroup.AddMember]

theorem foldl_instBody_fields (u : Util) (podId : String) (ics : List (Nat × Container))
    (g : EntityGroup) :
    let g' := ics.foldl (instBody u podId) g
    g'.kind = g.kind ∧ g'.name = g.name ∧ g'.key = g.key ∧
      g'.members .PodType = g.members .PodType ∧
      g'.members .ContainerType =
        g.members .ContainerType ++ ics.map (fun ic => u.ContainerIdFunc podId ic.1) ∧
      ∀ n, g'.ContainerGroups n =
        if (ics.filter (fun ic => ic.2.Name = n)).map (fun ic => u.ContainerIdFunc podId ic.1)
            = [] then g.ContainerGroups n
        else some ((g.ContainerGroups n).getD [] ++
          (ics.filter (fun ic => ic.2.Name = n)).map (fun ic => u.ContainerIdFunc podId ic.1)) := by
  induction ics generalizing g with
  | nil => simp
  | cons ic ics ih =>
    have := ih (instBody u podId g ic)
    simp only [List.foldl_cons, List.map_cons]
    obtain ⟨h1, h2, h3, h4, h5, h6⟩ := this
    have hk : (instBody u podId g ic).kind = g.kind := by
      simp only [instBody, EntityGroup.appendContainerGroup, EntityGroup.ensureContainerGroup]
      split <;> rfl
    have hn : (instBody u podId g ic).name = g.name := by
      simp only [instBody, EntityGroup.appendContainerGroup, EntityGroup.ensureContainerGroup]
      split <;> rfl
    have hkey : (instBody u podId g ic).key = g.key := by
      simp only [instBody, EntityGroup.appendContainerGroup, EntityGroup.ensureContainerGroup]
      split <;> rfl
    have hm : ∀ t, (instBody u podId g ic).members t =
        (g.AddMember .ContainerType (u.ContainerIdFunc podId ic.1)).members t := by
      intro t
      simp only [instBody, EntityGroup.appendContainerGroup, EntityGroup.ensureContainerGroup]
      split <;> rfl
    have hcg : ∀ n, (instBody u podId g ic).ContainerGroups n =
        if n = ic.2.Name then
          some ((g.ContainerGroups n).getD [] ++ [u.ContainerIdFunc podId ic.1])
        else g.ContainerGroups n := by
      intro n
      simp only [instBody, EntityGroup.appendContainerGroup, EntityGroup.ensureContainerGroup,
        EntityGroup.AddMember]
      by_cases hnn : n = ic.2.Name
      · subst hnn
        rcases hc : g.ContainerGroups ic.2.Name with _ | b <;> simp [GoMap.set, hc]
      · rcases hc : g.ContainerGroups ic.2.Name with _ | b <;> simp [GoMap.set, hc, hnn]
    refine ⟨h1.trans hk, h2.trans hn, h3.trans hkey, ?_, ?_, ?_⟩
    · rw [h4, hm]
      simp [EntityGroup.AddMember]
    · rw [h5, hm]
      simp [EntityGroup.AddMember]
    · intro n
      by_cases hnn : n = ic.2.Name
      · rw [h6 n, hcg n, List.filter_cons]
        subst hnn
        simp
      · have : ¬ ic.2.Name = n := fun h => hnn h.symm
        have hf : (ic :: ics).filter (fun ic => decide (ic.2.Name = n)) =
            ics.filter (fun ic => decide (ic.2.Name = n)) := by
          simp [List.filter_cons, this]
        rw [h6 n, hcg n, hf, if_neg hnn]

theorem containerIds_eq_map_enum (u : Util) (pod : Pod) :
    containerIds u pod =
      pod.Spec.Containers.enum.map (fun ic => u.ContainerIdFunc pod.UID ic.1) := by
  unfold containerIds
  rw [← List.enum_map_fst, List.map_map]
  rfl

theorem applyKind_fields (u : Util) (pod : Pod) (g : EntityGroup) :
    (applyKind u pod g).kind = g.kind ∧ (applyKind u pod g).name = g.name ∧
      (applyKind u pod g).key = g.key ∧
      (applyKind u pod g).ContainerGroups = g.ContainerGroups ∧
      (applyKind u pod g).members .PodType = g.members .PodType ++ [pod.UID] ∧
      (applyKind u pod g).members .ContainerType =
        g.members .ContainerType ++ containerIds u pod := by
  have := foldl_kindBody_fields u pod.UID pod.Spec.Containers.enum
    (g.AddMember .PodType pod.UID)
  rw [containerIds_eq_map_enum]
  simpa [applyKind, EntityGroup.AddMember] using this

theorem applyInst_fields (u : Util) (pod : Pod) (g : EntityGroup) :
    (applyInst u pod g).kind = g.kind ∧ (applyInst u pod g).name = g.name ∧
      (applyInst u pod g).key = g.key ∧
      (applyInst u pod g).members .PodType = g.members .PodType ∧
      (applyInst u pod g).members .ContainerType =
        g.members .ContainerType ++ containerIds u pod ∧
      ∀ n, (applyInst u pod g).ContainerGroups n =
        if containerIdsNamed u pod n = [] then g.ContainerGroups n
        else some ((g.ContainerGroups n).getD [] ++ containerIdsNamed u pod n) := by
  have := foldl_instBody_fields u pod.UID pod.Spec.Containers.enum g
  rw [containerIds_eq_map_enum]
  exact this

theorem applyUnit_header (u : Util) (r : Resolved) (g : EntityGroup) :
    (applyUnit u r g).kind = g.kind ∧ (applyUnit u r g).name = g.name ∧
      (applyUnit u r g).key = g.key := by
  unfold applyUnit
  split
  · exact ⟨(applyInst_fields u r.pod g).1, (applyInst_fields u r.pod g).2.1,
      (applyInst_fields u r.pod g).2.2.1⟩
  · split
    · exact ⟨(applyKind_fields u r.pod g).1, (applyKind_fields u r.pod g).2.1,
        (applyKind_fields u r.pod g).2.2.1⟩
    · exact ⟨rfl, rfl, rfl⟩

/-! ### Invariants of the list-level fold -/

theorem mem_listStep_imp {u : Util} {l : List EntityGroup} {r : Resolved} {g' : EntityGroup}
    (h : g' ∈ listStep u l r) :
    ∃ g, g' = applyUnit u r g ∧
      (g ∈ l ∨
        (g = NewEntityGroup r.ownerKind r.ownerName r.groupKey ∧
          (false, r.groupKey) ∉ l.map EntityGroup.scopeTag) ∨
        (g = NewEntityGroup r.ownerKind "" r.ownerKind ∧
          (true, r.ownerKind) ∉ l.map EntityGroup.scopeTag)) := by
  unfold listStep at h
  obtain ⟨g, hg, rfl⟩ := List.mem_map.1 h
  refine ⟨g, rfl, ?_⟩
  by_cases h1 : (false, r.groupKey) ∈ l.map EntityGroup.scopeTag
  · rw [if_pos h1] at hg
    by_cases h2 : (true, r.ownerKind) ∈ l.map EntityGroup.scopeTag
    · rw [if_pos h2] at hg
      exact Or.inl hg
    · rw [if_neg h2] at hg
      rcases List.mem_append.1 hg with hg | hg
      · exact Or.inl hg
      · exact Or.inr (Or.inr ⟨List.mem_singleton.1 hg, h2⟩)
  · rw [if_neg h1] at hg
    split at hg
    · rcases List.mem_append.1 hg with hg | hg
      · exact Or.inl hg
      · exact Or.inr (Or.inl ⟨List.mem_singleton.1 hg, h1⟩)
    · rename_i h2
      rcases List.mem_append.1 hg with hg | hg
      · rcases List.mem_append.1 hg with hg | hg
        · exact Or.inl hg
        · exact Or.inr (Or.inl ⟨List.mem_singleton.1 hg, h1⟩)
      · refine Or.inr (Or.inr ⟨List.mem_singleton.1 hg, fun hmem => h2 ?_⟩)
        rw [List.map_append]
        exact List.mem_append_left _ hmem

theorem mem_tags_listRun {u : Util} {rs : List Resolved} (hn : ∀ r ∈ rs, r.ownerName ≠ "")
    (t : Bool × String) :
    t ∈ (listRun u rs).map EntityGroup.scopeTag ↔ ∃ r ∈ rs, t ∈ unitTags r := by
  rw [map_scopeTag_listRun u rs hn, mem_keepFirst, List.mem_flatMap]

theorem GroupContent_New_inst (u : Util) {rs : List Resolved} {k n key : String}
    (hn : n ≠ "") (hfresh : ∀ r ∈ rs, r.groupKey ≠ key) :
    GroupContent u rs (NewEntityGroup k n key) := by
  have hf : rs.filter (fun r => decide (r.groupKey = key)) = [] := by
    rw [List.filter_eq_nil_iff]
    intro r hr
    simpa using hfresh r hr
  simp [GroupContent, NewEntityGroup, hn, instMembersOf, bucketOf, hf, GoMap.empty]

theorem GroupContent_New_kind (u : Util) {rs : List Resolved} {k : String}
    (hfresh : ∀ r ∈ rs, r.ownerKind ≠ k) :
    GroupContent u rs (NewEntityGroup k "" k) := by
  have hf : rs.filter (fun r => decide (r.ownerKind = k)) = [] := by
    rw [List.filter_eq_nil_iff]
    intro r hr
    simpa using hfresh r hr
  simp [GroupContent, NewEntityGroup, kindPodsOf, kindMembersOf, hf, GoMap.empty]

theorem scopeTag_eq_false_iff {g : EntityGroup} {key : String} :
    g.scopeTag = (false, key) ↔ g.name ≠ "" ∧ g.key = key := by
  simp [EntityGroup.scopeTag, EntityGroup.kindScoped]

theorem scopeTag_eq_true_iff {g : EntityGroup} {key : String} :
    g.scopeTag = (true, key) ↔ g.name = "" ∧ g.key = key := by
  simp [EntityGroup.scopeTag, EntityGroup.kindScoped]

theorem GroupContent_applyUnit (u : Util) {rs : List Resolved} (r : Resolved)
    {g : EntityGroup} (h : GroupContent u rs g) :
    GroupContent u (rs ++ [r]) (applyUnit u r g) := by
  unfold applyUnit
  by_cases h1 : g.scopeTag = (false, r.groupKey)
  · rw [if_pos h1]
    obtain ⟨hname, hkey⟩ := scopeTag_eq_false_iff.1 h1
    obtain ⟨-, f2, f3, f4, f5, f6⟩ := applyInst_fields u r.pod g
    unfold GroupContent at h ⊢
    rw [if_neg hname] at h
    rw [f2, f3, if_neg hname]
    obtain ⟨c1, c2, c3⟩ := h
    refine ⟨f4.trans c1, ?_, ?_⟩
    · rw [f5, c2]
      simp [instMembersOf, List.filter_append, hkey]
    · intro n
      have hb : bucketOf u (rs ++ [r]) g.key n =
          bucketOf u rs g.key n ++ containerIdsNamed u r.pod n := by
        simp [bucketOf, List.filter_append, hkey]
      rw [f6 n, c3 n, hb]
      by_cases hB : bucketOf u rs g.key n = [] <;>
        by_cases hC : containerIdsNamed u r.pod n = [] <;> simp [hB, hC]
  · rw [if_neg h1]
    by_cases h2 : g.scopeTag = (true, r.ownerKind)
    · rw [if_pos h2]
      obtain ⟨hname, hkey⟩ := scopeTag_eq_true_iff.1 h2
      obtain ⟨-, f2, f3, f4, f5, f6⟩ := applyKind_fields u r.pod g
      unfold GroupContent at h ⊢
      rw [if_pos hname] at h
      rw [f2, f3, if_pos hname]
      obtain ⟨c1, c2, c3⟩ := h
      refine ⟨?_, ?_, ?_⟩
      · rw [f5, c1]
        simp [kindPodsOf, List.filter_append, hkey]
      · rw [f6, c2]
        simp [kindMembersOf, List.filter_append, hkey]
      · intro n
        rw [f4]
        exact c3 n
    · rw [if_neg h2]
      unfold GroupContent at h ⊢
      by_cases hname : g.name = ""
      · rw [if_pos hname] at h ⊢
        have hk : ¬ r.ownerKind = g.key := fun hk =>
          h2 (scopeTag_eq_true_iff.2 ⟨hname, hk.symm⟩)
        simpa [kindPodsOf, kindMembersOf, List.filter_append, hk] using h
      · rw [if_neg hname] at h ⊢
        have hk : ¬ r.groupKey = g.key := fun hk =>
          h1 (scopeTag_eq_false_iff.2 ⟨hname, hk.symm⟩)
        simpa [instMembersOf, bucketOf, List.filter_append, hk] using h

theorem content_listRun (u : Util) (rs : List Resolved) (hn : ∀ r ∈ rs, r.ownerName ≠ "") :
    ∀ g ∈ listRun u rs, GroupContent u rs g := by
  induction rs using List.reverseRecOn with
  | nil => simp [listRun]
  | append_singleton rs r ih =>
    have hn' : ∀ r' ∈ rs, r'.ownerName ≠ "" := fun r' hr' =>
      hn r' (List.mem_append_left _ hr')
    have hr : r.ownerName ≠ "" := hn r (by simp)
    intro g' hg'
    rw [listRun_append_singleton] at hg'
    obtain ⟨g, rfl, hg⟩ := mem_listStep_imp hg'
    apply GroupContent_applyUnit
    rcases hg with hg | ⟨rfl, hfresh⟩ | ⟨rfl, hfresh⟩
    · exact ih hn' g hg
    · apply GroupContent_New_inst u hr
      intro r' hr' heq
      exact hfresh ((mem_tags_listRun hn' _).2 ⟨r', hr', by simp [unitTags, heq]⟩)
    · apply GroupContent_New_kind u
      intro r' hr' heq
      exact hfresh ((mem_tags_listRun hn' _).2 ⟨r', hr', by simp [unitTags, heq]⟩)

theorem GroupShape_mono {rs : List Resolved} (r : Resolved) {g : EntityGroup}
    (h : GroupShape rs g) : GroupShape (rs ++ [r]) g := by
  obtain ⟨hk, h | ⟨hn, r', hr', h⟩⟩ := h
  · exact ⟨hk, Or.inl h⟩
  · exact ⟨hk, Or.inr ⟨hn, r', List.mem_append_left _ hr', h⟩⟩

theorem GroupShape_applyUnit (u : Util) {rs : List Resolved} (r : Resolved) {g : EntityGroup}
    (h : GroupShape rs g) : GroupShape rs (applyUnit u r g) := by
  obtain ⟨e1, e2, e3⟩ := applyUnit_header u r g
  unfold GroupShape
  rw [e1, e2, e3]
  exact h

theorem shape_listRun (u : Util) (rs : List Resolved)
    (hne : ∀ r ∈ rs, r.ownerKind ≠ "" ∧ r.ownerName ≠ "") :
    ∀ g ∈ listRun u rs, GroupShape rs g := by
  induction rs using List.reverseRecOn with
  | nil => simp [listRun]
  | append_singleton rs r ih =>
    have hne' : ∀ r' ∈ rs, r'.ownerKind ≠ "" ∧ r'.ownerName ≠ "" := fun r' hr' =>
      hne r' (List.mem_append_left _ hr')
    obtain ⟨hrk, hrn⟩ := hne r (by simp)
    intro g' hg'
    rw [listRun_append_singleton] at hg'
    obtain ⟨g, rfl, hg⟩ := mem_listStep_imp hg'
    apply GroupShape_applyUnit
    rcases hg with hg | ⟨rfl, -⟩ | ⟨rfl, -⟩
    · exact GroupShape_mono r (ih hne' g hg)
    · refine ⟨hrk, Or.inr ⟨hrn, r, by simp, rfl, rfl, rfl⟩⟩
    · exact ⟨hrk, Or.inl ⟨rfl, rfl⟩⟩

/-! ### Keys of each scheme, in creation order -/

theorem instKeyOf_inj (x y : Bool × String) (b : String) (hx : instKeyOf x = some b)
    (hy : instKeyOf y = some b) : x = y := by
  rcases x with ⟨_ | _, kx⟩ <;> rcases y with ⟨_ | _, ky⟩ <;> simp_all [instKeyOf]

theorem kindKeyOf_inj (x y : Bool × String) (b : String) (hx : kindKeyOf x = some b)
    (hy : kindKeyOf y = some b) : x = y := by
  rcases x with ⟨_ | _, kx⟩ <;> rcases y with ⟨_ | _, ky⟩ <;> simp_all [kindKeyOf]

theorem filterMap_instKeyOf_tags (l : List EntityGroup) :
    (l.map EntityGroup.scopeTag).filterMap instKeyOf =
      (l.filter EntityGroup.instanceScoped).map (fun g => g.key) := by
  induction l with
  | nil => rfl
  | cons g l ih =>
    by_cases h : g.name = "" <;>
      simp [List.filter_cons, instKeyOf, EntityGroup.scopeTag, EntityGroup.kindScoped,
        EntityGroup.instanceScoped, h, ih]

theorem filterMap_kindKeyOf_tags (l : List EntityGroup) :
    (l.map EntityGroup.scopeTag).filterMap kindKeyOf =
      (l.filter EntityGroup.kindScoped).map (fun g => g.key) := by
  induction l with
  | nil => rfl
  | cons g l ih =>
    by_cases h : g.name = "" <;>
      simp [List.filter_cons, kindKeyOf, EntityGroup.scopeTag, EntityGroup.kindScoped, h, ih]

theorem filterMap_instKeyOf_unitTags (rs : List Resolved) :
    (rs.flatMap unitTags).filterMap instKeyOf = rs.map Resolved.groupKey := by
  induction rs with
  | nil => rfl
  | cons r rs ih => simp [List.flatMap_cons, unitTags, instKeyOf, ih]

theorem filterMap_kindKeyOf_unitTags (rs : List Resolved) :
    (rs.flatMap unitTags).filterMap kindKeyOf = rs.map (fun r => r.ownerKind) := by
  induction rs with
  | nil => rfl
  | cons r rs ih => simp [List.flatMap_cons, unitTags, kindKeyOf, ih]

theorem instKeys_listRun (u : Util) (rs : List Resolved) (hn : ∀ r ∈ rs, r.ownerName ≠ "") :
    ((listRun u rs).filter EntityGroup.instanceScoped).map (fun g => g.key) =
      keepFirst (rs.map Resolved.groupKey) := by
  rw [← filterMap_instKeyOf_tags, map_scopeTag_listRun u rs hn,
    keepFirst_filterMap instKeyOf instKeyOf_inj, filterMap_instKeyOf_unitTags]

theorem kindKeys_listRun (u : Util) (rs : List Resolved) (hn : ∀ r ∈ rs, r.ownerName ≠ "") :
    ((listRun u rs).filter EntityGroup.kindScoped).map (fun g => g.key) =
      keepFirst (rs.map (fun r => r.ownerKind)) := by
  rw [← filterMap_kindKeyOf_tags, map_scopeTag_listRun u rs hn,
    keepFirst_filterMap kindKeyOf kindKeyOf_inj, filterMap_kindKeyOf_unitTags]

/-! ### The group key determines the triple when kind and namespace have no slash -/

theorem append_cons_inj_of_not_mem {c : Char} :
    ∀ {a a' b b' : List Char}, c ∉ a → c ∉ a' → a ++ c :: b = a' ++ c :: b' →
      a = a' ∧ b = b'
  | [], [], _, _, _, _, h => by simpa using h
  | [], y :: a', _, _, _, h2, h => by
    simp only [List.nil_append, List.cons_append, List.cons.injEq] at h
    exact absurd (h.1 ▸ List.mem_cons_self _ _) h2
  | x :: a, [], _, _, h1, _, h => by
    simp only [List.nil_append, List.cons_append, List.cons.injEq] at h
    exact absurd (h.1 ▸ List.mem_cons_self _ _) h1
  | x :: a, y :: a', _, _, h1, h2, h => by
    simp only [List.cons_append, List.cons.injEq] at h
    have := append_cons_inj_of_not_mem (fun hc => h1 (List.mem_cons_of_mem _ hc))
      (fun hc => h2 (List.mem_cons_of_mem _ hc)) h.2
    exact ⟨by rw [h.1, this.1], this.2⟩

theorem groupKeyOf_data (k ns n : String) :
    (groupKeyOf k ns n).data = k.data ++ '/' :: (ns.data ++ '/' :: n.data) := by
  simp [groupKeyOf, String.data_append]

theorem groupKeyOf_inj {k ns n k' ns' n' : String} (hk : '/' ∉ k.data) (hns : '/' ∉ ns.data)
    (hk' : '/' ∉ k'.data) (hns' : '/' ∉ ns'.data)
    (h : groupKeyOf k ns n = groupKeyOf k' ns' n') : k = k' ∧ ns = ns' ∧ n = n' := by
  have hd := congrArg String.data h
  rw [groupKeyOf_data, groupKeyOf_data] at hd
  obtain ⟨e1, e2⟩ := append_cons_inj_of_not_mem hk hk' hd
  obtain ⟨e3, e4⟩ := append_cons_inj_of_not_mem hns hns' e2
  exact ⟨String.ext e1, String.ext e3, String.ext e4⟩

theorem slash_mem_groupKeyOf (k ns n : String) : '/' ∈ (groupKeyOf k ns n).data := by
  rw [groupKeyOf_data]
  simp

/-! ## Properties of the collector -/

theorem resolveAll_resolvablePods (u : Util) (sink : EntityMetricSink) (pods : List Pod) :
    resolveAll u sink (resolvablePods u sink pods) = resolveAll u sink pods := by
  induction pods with
  | nil => rfl
  | cons pod pods ih =>
    unfold resolveAll resolvablePods at ih ⊢
    rcases hr : getGroupName u sink .PodType (u.PodKeyFunc pod) with e | ⟨k, n⟩
    · have h1 : resolveOne u sink pod = none := resolveOne_eq_none.2 ⟨e, hr⟩
      have hb : (getGroupName u sink .PodType (u.PodKeyFunc pod)).isOk = false := by
        rw [hr]
        rfl
      rw [List.filter_cons_of_neg (by simp [hb]), List.filterMap_cons_none h1]
      exact ih
    · have h1 : resolveOne u sink pod = some ⟨k, n, pod⟩ :=
        resolveOne_eq_some.2 ⟨hr, rfl⟩
      have hb : (getGroupName u sink .PodType (u.PodKeyFunc pod)).isOk = true := by
        rw [hr]
        rfl
      rw [List.filter_cons_of_pos (by simp [hb]), List.filterMap_cons_some h1,
        List.filterMap_cons_some h1, ih]

theorem resolved_ne_empty (u : Util) (c : GroupMetricsCollector) :
    ∀ r ∈ resolveAll u c.MetricsSink c.PodList, r.ownerKind ≠ "" ∧ r.ownerName ≠ "" :=
  fun _ hr => resolveAll_ne_empty hr

theorem resolved_names_ne (u : Util) (c : GroupMetricsCollector) :
    ∀ r ∈ resolveAll u c.MetricsSink c.PodList, r.ownerName ≠ "" :=
  fun _ hr => (resolveAll_ne_empty hr).2

theorem toFinset_groupKey_eq_image (rs : List Resolved) :
    (rs.map Resolved.groupKey).toFinset =
      (rs.map Resolved.triple).toFinset.image (fun t => groupKeyOf t.1 t.2.1 t.2.2) := by
  ext k
  simp only [List.mem_toFinset, List.mem_map, Finset.mem_image]
  constructor
  · rintro ⟨r, hr, rfl⟩
    exact ⟨r.triple, ⟨r, hr, rfl⟩, rfl⟩
  · rintro ⟨t, ⟨r, hr, rfl⟩, rfl⟩
    exact ⟨r, hr, rfl⟩

/-- C1 (counterexample): the owner triples `(a/b, c, d)` and `(a, b/c, d)` are distinct and
have the same group key `a/b/c/d`, so the output has one instance-scoped group for two
distinct triples. -/
theorem instance_group_count_counterexample :
    ((CollectGroupMetrics sampleUtil sameKeyCollector).filter
        EntityGroup.instanceScoped).length ≠
      ((resolveAll sampleUtil sameKeyCollector.MetricsSink sameKeyCollector.PodList).map
        Resolved.triple).toFinset.card := by
  decide

/-- C1 (amended): for every batch and metric store in which no resolved owner kind and no
namespace of a resolvable unit contains a slash, the number of instance-scoped groups
(groups with a non-empty name) of the output equals the number of distinct
`(ownerKind, namespace, ownerName)` triples among the resolvable units. -/
theorem instance_group_count (u : Util) (c : GroupMetricsCollector)
    (hslash : ∀ r ∈ resolveAll u c.MetricsSink c.PodList,
      '/' ∉ r.ownerKind.data ∧ '/' ∉ r.pod.Namespace.data) :
    ((CollectGroupMetrics u c).filter EntityGroup.instanceScoped).length =
      ((resolveAll u c.MetricsSink c.PodList).map Resolved.triple).toFinset.card := by
  have hkeys := instKeys_listRun u _ (resolved_names_ne u c)
  rw [CollectGroupMetrics_eq_listRun, ← List.length_map _ (fun g => g.key), hkeys,
    length_keepFirst, toFinset_groupKey_eq_image]
  apply Finset.card_image_of_injOn
  intro t ht t' ht' heq
  simp only [Finset.mem_coe, List.mem_toFinset, List.mem_map] at ht ht'
  obtain ⟨r, hr, rfl⟩ := ht
  obtain ⟨r', hr', rfl⟩ := ht'
  obtain ⟨e1, e2, e3⟩ := groupKeyOf_inj (hslash r hr).1 (hslash r hr).2 (hslash r' hr').1
    (hslash r' hr').2 heq
  simp only [Resolved.triple] at e1 e2 e3 ⊢
  rw [e1, e2, e3]

/-- C1 (witness): the example batch has no slash in an owner kind or a namespace, and its
two instance-scoped groups are as many as its distinct owner triples. -/
theorem instance_group_count_witness :
    (∀ r ∈ resolveAll sampleUtil sampleCollector.MetricsSink sampleCollector.PodList,
      '/' ∉ r.ownerKind.data ∧ '/' ∉ r.pod.Namespace.data) ∧
    ((CollectGroupMetrics sampleUtil sampleCollector).filter
        EntityGroup.instanceScoped).length =
      ((resolveAll sampleUtil sampleCollector.MetricsSink sampleCollector.PodList).map
        Resolved.triple).toFinset.card :=
  ⟨by decide, instance_group_count sampleUtil sampleCollector (by decide)⟩

/-- C2: the number of kind-scoped groups (empty name and key equal to kind) of the output
equals the number of distinct owner kinds among the resolvable units of the batch. -/
theorem kind_group_count (u : Util) (c : GroupMetricsCollector) :
    ((CollectGroupMetrics u c).filter
        (fun g => decide (g.name = "" ∧ g.key = g.kind))).length =
      ((resolveAll u c.MetricsSink c.PodList).map
        (fun r => r.ownerKind)).toFinset.card := by
  have hkeys := kindKeys_listRun u _ (resolved_names_ne u c)
  have hshape := shape_listRun u _ (resolved_ne_empty u c)
  have hfilter : (listRun u (resolveAll u c.MetricsSink c.PodList)).filter
      (fun g => decide (g.name = "" ∧ g.key = g.kind)) =
      (listRun u (resolveAll u c.MetricsSink c.PodList)).filter EntityGroup.kindScoped := by
    apply List.filter_congr
    intro g hg
    obtain ⟨-, h | h⟩ := hshape g hg
    · simp [EntityGroup.kindScoped, h.1, h.2]
    · simp [EntityGroup.kindScoped, h.1]
  rw [CollectGroupMetrics_eq_listRun, hfilter, ← List.length_map _ (fun g => g.key), hkeys,
    length_keepFirst]

/-- C3: the output for a batch is the output for the batch without the units whose
`getGroupName` call fails: such a unit adds no member and creates no group. -/
theorem unresolvable_units_ignored (u : Util) (c : GroupMetricsCollector) :
    CollectGroupMetrics u c =
      CollectGroupMetrics u
        { c with PodList := resolvablePods u c.MetricsSink c.PodList } := by
  rw [CollectGroupMetrics_eq_listRun, CollectGroupMetrics_eq_listRun]
  simp only [resolveAll_resolvablePods]

theorem exists_group_of_tag {u : Util} {rs : List Resolved}
    (hn : ∀ r ∈ rs, r.ownerName ≠ "") {r : Resolved} (hr : r ∈ rs) {t : Bool × String}
    (ht : t ∈ unitTags r) : ∃ g ∈ listRun u rs, g.scopeTag = t := by
  have := (mem_tags_listRun (u := u) hn t).2 ⟨r, hr, ht⟩
  obtain ⟨g, hg, hgt⟩ := List.mem_map.1 this
  exact ⟨g, hg, hgt⟩

theorem mem_containerIds {u : Util} {pod : Pod} {i : Nat}
    (hi : i < pod.Spec.Containers.length) : u.ContainerIdFunc pod.UID i ∈ containerIds u pod := by
  unfold containerIds
  exact List.mem_map.2 ⟨i, List.mem_range.2 hi, rfl⟩

theorem mem_containerIdsNamed {u : Util} {pod : Pod} {i : Nat} {ct : Container}
    (hi : pod.Spec.Containers[i]? = some ct) :
    u.ContainerIdFunc pod.UID i ∈ containerIdsNamed u pod ct.Name := by
  unfold containerIdsNamed
  refine List.mem_map.2 ⟨(i, ct), List.mem_filter.2 ⟨?_, by simp⟩, rfl⟩
  exact List.mk_mem_enum_iff_getElem?.2 hi

/-- C4: for a resolvable unit `r` of the batch and a container index `i` of it, the
identifier `ContainerIdFunc(uid, i)` is a container-type member of the instance-scoped
output group of key `kind/namespace/name`, is in the bucket of that group keyed by the
name of container `i`, and is a container-type member of the kind-scoped output group of
key `kind`; both groups are in the output. -/
theorem container_in_both_groups (u : Util) (c : GroupMetricsCollector) (r : Resolved)
    (i : Nat) (ct : Container)
    (hr : r ∈ resolveAll u c.MetricsSink c.PodList)
    (hi : r.pod.Spec.Containers[i]? = some ct) :
    (∃ g ∈ CollectGroupMetrics u c, g.name ≠ "" ∧
        g.key = groupKeyOf r.ownerKind r.pod.Namespace r.ownerName) ∧
    (∀ g ∈ CollectGroupMetrics u c, g.name ≠ "" →
        g.key = groupKeyOf r.ownerKind r.pod.Namespace r.ownerName →
        u.ContainerIdFunc r.pod.UID i ∈ g.members .ContainerType ∧
        ∃ bucket, g.ContainerGroups ct.Name = some bucket ∧
          u.ContainerIdFunc r.pod.UID i ∈ bucket) ∧
    (∃ g ∈ CollectGroupMetrics u c, g.name = "" ∧ g.key = r.ownerKind) ∧
    (∀ g ∈ CollectGroupMetrics u c, g.name = "" → g.key = r.ownerKind →
        u.ContainerIdFunc r.pod.UID i ∈ g.members .ContainerType) := by
  rw [CollectGroupMetrics_eq_listRun]
  have hn := resolved_names_ne u c
  have hcontent := content_listRun u _ hn
  have hilt : i < r.pod.Spec.Containers.length := by
    rcases Nat.lt_or_ge i r.pod.Spec.Containers.length with h | h
    · exact h
    · rw [List.getElem?_eq_none h] at hi
      cases hi
  refine ⟨?_, ?_, ?_, ?_⟩
  · obtain ⟨g, hg, ht⟩ := exists_group_of_tag (u := u) hn hr
      (t := (false, r.groupKey)) (by simp [unitTags])
    exact ⟨g, hg, scopeTag_eq_false_iff.1 ht⟩
  · intro g hg hname hkey
    have hc := hcontent g hg
    unfold GroupContent at hc
    rw [if_neg hname] at hc
    obtain ⟨-, c2, c3⟩ := hc
    have hmemB : u.ContainerIdFunc r.pod.UID i ∈
        bucketOf u (resolveAll u c.MetricsSink c.PodList) g.key ct.Name := by
      unfold bucketOf
      exact List.mem_flatMap.2 ⟨r, List.mem_filter.2 ⟨hr, by simp [hkey, Resolved.groupKey]⟩,
        mem_containerIdsNamed hi⟩
    constructor
    · rw [c2]
      unfold instMembersOf
      exact List.mem_flatMap.2 ⟨r, List.mem_filter.2 ⟨hr, by simp [hkey, Resolved.groupKey]⟩,
        mem_containerIds hilt⟩
    · refine ⟨_, ?_, hmemB⟩
      rw [c3 ct.Name, if_neg (List.ne_nil_of_mem hmemB)]
  · obtain ⟨g, hg, ht⟩ := exists_group_of_tag (u := u) hn hr
      (t := (true, r.ownerKind)) (by simp [unitTags])
    exact ⟨g, hg, scopeTag_eq_true_iff.1 ht⟩
  · intro g hg hname hkey
    have hc := hcontent g hg
    unfold GroupContent at hc
    rw [if_pos hname] at hc
    rw [hc.2.1]
    unfold kindMembersOf
    exact List.mem_flatMap.2 ⟨r, List.mem_filter.2 ⟨hr, by simp [hkey]⟩,
      mem_containerIds hilt⟩

/-- C4 (witness): the second container of pod1 in the example batch. -/
theorem container_in_both_groups_witness :
    (⟨"ReplicaSet", "rs-a", ⟨"uid1", "ns1", "pod1", ⟨[⟨"c1"⟩, ⟨"c2"⟩]⟩⟩⟩ : Resolved) ∈
        resolveAll sampleUtil sampleCollector.MetricsSink sampleCollector.PodList ∧
    (∃ g ∈ CollectGroupMetrics sampleUtil sampleCollector, g.name ≠ "" ∧
        g.key = "ReplicaSet/ns1/rs-a") ∧
    (∀ g ∈ CollectGroupMetrics sampleUtil sampleCollector, g.name ≠ "" →
        g.key = "ReplicaSet/ns1/rs-a" →
        "uid1-1" ∈ g.members .ContainerType ∧
        ∃ bucket, g.ContainerGroups "c2" = some bucket ∧ "uid1-1" ∈ bucket) ∧
    (∃ g ∈ CollectGroupMetrics sampleUtil sampleCollector, g.name = "" ∧
        g.key = "ReplicaSet") ∧
    (∀ g ∈ CollectGroupMetrics sampleUtil sampleCollector, g.name = "" →
        g.key = "ReplicaSet" → "uid1-1" ∈ g.members .ContainerType) :=
  ⟨by decide,
    container_in_both_groups sampleUtil sampleCollector
      ⟨"ReplicaSet", "rs-a", ⟨"uid1", "ns1", "pod1", ⟨[⟨"c1"⟩, ⟨"c2"⟩]⟩⟩⟩ 1 ⟨"c2"⟩
      (by decide) (by decide)⟩

/-- C5: for an instance-scoped output group `g` and a container name `n`, the bucket
`g.ContainerGroups[n]` (read as the nil slice when absent) is the concatenation, over the
resolvable units of the batch in batch order whose group key is the key of `g`, of the
identifiers `ContainerIdFunc(uid, i)` for the indices `i` in increasing order whose
container name is `n`; the bucket is absent exactly when that concatenation is empty. -/
theorem bucket_eq_concatenation (u : Util) (c : GroupMetricsCollector) (g : EntityGroup)
    (n : String) (hg : g ∈ CollectGroupMetrics u c) (hname : g.name ≠ "") :
    (g.ContainerGroups n).getD [] =
        bucketOf u (resolveAll u c.MetricsSink c.PodList) g.key n ∧
      (g.ContainerGroups n = none ↔
        bucketOf u (resolveAll u c.MetricsSink c.PodList) g.key n = []) := by
  rw [CollectGroupMetrics_eq_listRun] at hg
  have hc := content_listRun u _ (resolved_names_ne u c) g hg
  unfold GroupContent at hc
  rw [if_neg hname] at hc
  rw [hc.2.2 n]
  by_cases hb : bucketOf u (resolveAll u c.MetricsSink c.PodList) g.key n = []
  · simp [hb]
  · simp [hb]

/-- C5 (witness): the bucket `c1` of the group `ReplicaSet/ns1/rs-a` of the example batch
is `[uid1-0, uid2-0]`. -/
theorem bucket_eq_concatenation_witness :
    ((CollectGroupMetrics sampleUtil sampleCollector).get ⟨0, by decide⟩).name ≠ "" ∧
    (((CollectGroupMetrics sampleUtil sampleCollector).get ⟨0, by decide⟩).ContainerGroups
        "c1").getD [] = ["uid1-0", "uid2-0"] :=
  ⟨by decide,
    (bucket_eq_concatenation sampleUtil sampleCollector _ "c1"
      (List.get_mem _ 0 (by decide)) (by decide)).1⟩

/-- C6: an instance-scoped group of the output has no pod-type member, also when a unit
mapped to it has no container. -/
theorem instance_group_has_no_pod_member (u : Util) (c : GroupMetricsCollector)
    (g : EntityGroup) (hg : g ∈ CollectGroupMetrics u c) (hname : g.name ≠ "") :
    g.members .PodType = [] := by
  rw [CollectGroupMetrics_eq_listRun] at hg
  have hc := content_listRun u _ (resolved_names_ne u c) g hg
  unfold GroupContent at hc
  rw [if_neg hname] at hc
  exact hc.1

/-- C6 (witness): the group `DaemonSet/ns1/ds-b` of the example batch, whose only unit has
no container, has no pod-type member. -/
theorem instance_group_has_no_pod_member_witness :
    ((CollectGroupMetrics sampleUtil sampleCollector).get ⟨2, by decide⟩).key =
        "DaemonSet/ns1/ds-b" ∧
    ((CollectGroupMetrics sampleUtil sampleCollector).get ⟨2, by decide⟩).name ≠ "" ∧
    ((CollectGroupMetrics sampleUtil sampleCollector).get ⟨2, by decide⟩).members .PodType
        = [] :=
  ⟨by decide, by decide,
    instance_group_has_no_pod_member sampleUtil sampleCollector _
      (List.get_mem _ 2 (by decide)) (by decide)⟩

/-- C7: the output list is in first-encountered order. The keys of its instance-scoped
groups are the group keys of the resolvable units in batch order with later repeats
removed; the keys of its kind-scoped groups are the owner kinds of the resolvable units in
batch order with later repeats removed; and the whole list, by scheme and key, is the
sequence "instance-scoped group of the unit, kind-scoped group of the unit" over the
resolvable units in batch order with later repeats removed. -/
theorem first_encountered_order (u : Util) (c : GroupMetricsCollector) :
    ((CollectGroupMetrics u c).filter (fun g => decide (g.name ≠ ""))).map (fun g => g.key) =
        keepFirst ((resolveAll u c.MetricsSink c.PodList).map
          (fun r => groupKeyOf r.ownerKind r.pod.Namespace r.ownerName)) ∧
      ((CollectGroupMetrics u c).filter (fun g => decide (g.name = ""))).map (fun g => g.key) =
        keepFirst ((resolveAll u c.MetricsSink c.PodList).map (fun r => r.ownerKind)) ∧
      (CollectGroupMetrics u c).map (fun g => (decide (g.name = ""), g.key)) =
        keepFirst ((resolveAll u c.MetricsSink c.PodList).flatMap
          (fun r => [(false, groupKeyOf r.ownerKind r.pod.Namespace r.ownerName),
            (true, r.ownerKind)])) := by
  have hn := resolved_names_ne u c
  rw [CollectGroupMetrics_eq_listRun]
  refine ⟨?_, ?_, ?_⟩
  · have := instKeys_listRun u _ hn
    have hf : (fun g : EntityGroup => decide (g.name ≠ "")) = EntityGroup.instanceScoped := by
      funext g
      by_cases h : g.name = "" <;> simp [EntityGroup.instanceScoped, h]
    rw [hf]
    exact this
  · have := kindKeys_listRun u _ hn
    have hf : (fun g : EntityGroup => decide (g.name = "")) = EntityGroup.kindScoped := by
      funext g
      by_cases h : g.name = "" <;> simp [EntityGroup.kindScoped, h]
    rw [hf]
    exact this
  · have := map_scopeTag_listRun u _ hn
    have hf : (fun g : EntityGroup => (decide (g.name = ""), g.key)) = EntityGroup.scopeTag := by
      funext g
      by_cases h : g.name = "" <;> simp [EntityGroup.scopeTag, EntityGroup.kindScoped, h]
    rw [hf]
    exact this

/-- C8 (counterexample): the first pod has owner `(a, c)` in namespace `b` and the second
pod has owner kind `a/b/c`; the instance-scoped group of the first and the kind-scoped
group of the second both have key `a/b/c`. -/
theorem group_keys_unique_counterexample :
    ¬ ((CollectGroupMetrics sampleUtil crossKeyCollector).map (fun g => g.key)).Nodup := by
  decide

/-- C8 (amended): for every batch and metric store in which no resolved owner kind
contains a slash, any two groups at different positions of the output have different
keys. -/
theorem group_keys_unique (u : Util) (c : GroupMetricsCollector)
    (hslash : ∀ r ∈ resolveAll u c.MetricsSink c.PodList, '/' ∉ r.ownerKind.data) :
    ((CollectGroupMetrics u c).map (fun g => g.key)).Nodup := by
  have hn := resolved_names_ne u c
  rw [CollectGroupMetrics_eq_listRun]
  have htags : ((listRun u (resolveAll u c.MetricsSink c.PodList)).map
      EntityGroup.scopeTag).Nodup := by
    rw [map_scopeTag_listRun u _ hn]
    exact nodup_keepFirst _
  have hkey : (listRun u (resolveAll u c.MetricsSink c.PodList)).map (fun g => g.key) =
      ((listRun u (resolveAll u c.MetricsSink c.PodList)).map EntityGroup.scopeTag).map
        Prod.snd := by
    rw [List.map_map]
    rfl
  rw [hkey]
  refine List.Nodup.map_on ?_ htags
  rintro ⟨s, k⟩ hx ⟨s', k'⟩ hy hsnd
  simp only at hsnd
  subst hsnd
  have hcross : ∀ k, (false, k) ∈ (listRun u (resolveAll u c.MetricsSink c.PodList)).map
      EntityGroup.scopeTag → (true, k) ∈ (listRun u (resolveAll u c.MetricsSink
        c.PodList)).map EntityGroup.scopeTag → False := by
    intro k h1 h2
    obtain ⟨r, hr, ht⟩ := (mem_tags_listRun hn _).1 h1
    obtain ⟨r', hr', ht'⟩ := (mem_tags_listRun hn _).1 h2
    simp only [unitTags, List.mem_cons, Prod.mk.injEq, Bool.false_eq_true, false_and,
      List.mem_singleton, or_false, true_and, Bool.true_eq_false, List.not_mem_nil,
      false_or] at ht ht'
    have := slash_mem_groupKeyOf r.ownerKind r.pod.Namespace r.ownerName
    rw [← Resolved.groupKey, ← ht, ht'] at this
    exact hslash r' hr' this
  rcases s with _ | _ <;> rcases s' with _ | _
  · rfl
  · exact absurd (hcross k hx hy) id
  · exact absurd (hcross k hy hx) id
  · rfl

/-- C8 (witness): the owner kinds of the example batch have no slash and the keys of its
four groups are pairwise different. -/
theorem group_keys_unique_witness :
    (∀ r ∈ resolveAll sampleUtil sampleCollector.MetricsSink sampleCollector.PodList,
      '/' ∉ r.ownerKind.data) ∧
    ((CollectGroupMetrics sampleUtil sampleCollector).map (fun g => g.key)).Nodup :=
  ⟨by decide, group_keys_unique sampleUtil sampleCollector (by decide)⟩

/-- C9: every group of the output has a non-empty kind and one of two shapes: its name
is empty and its key is its kind, or its name is not empty and its key is
`kind/ns/name` for the namespace `ns` of a resolvable unit of the batch whose resolved
owner is `(kind, name)`. -/
theorem group_well_formed (u : Util) (c : GroupMetricsCollector) (g : EntityGroup)
    (hg : g ∈ CollectGroupMetrics u c) :
    g.kind ≠ "" ∧
      ((g.name = "" ∧ g.key = g.kind) ∨
       (g.name ≠ "" ∧ ∃ pod ∈ c.PodList,
          getGroupName u c.MetricsSink .PodType (u.PodKeyFunc pod) = .ok (g.kind, g.name) ∧
          g.key = g.kind ++ "/" ++ pod.Namespace ++ "/" ++ g.name)) := by
  rw [CollectGroupMetrics_eq_listRun] at hg
  have hshape := shape_listRun u _ (resolved_ne_empty u c) g hg
  obtain ⟨hk, h | ⟨hname, r, hr, e1, e2, e3⟩⟩ := hshape
  · exact ⟨hk, Or.inl h⟩
  · obtain ⟨hpod, hown⟩ := mem_resolveAll.1 hr
    refine ⟨hk, Or.inr ⟨hname, r.pod, hpod, ?_, e3⟩⟩
    rw [← e1, ← e2]
    exact hown

/-- C9 (witness): the first group of the example batch is instance-scoped, with kind
`ReplicaSet`, name `rs-a` and key `ReplicaSet/ns1/rs-a`. -/
theorem group_well_formed_witness :
    ((CollectGroupMetrics sampleUtil sampleCollector).get ⟨0, by decide⟩).key =
        "ReplicaSet/ns1/rs-a" ∧
    ((CollectGroupMetrics sampleUtil sampleCollector).get ⟨0, by decide⟩).kind ≠ "" :=
  ⟨by decide,
    (group_well_formed sampleUtil sampleCollector _ (List.get_mem _ 0 (by decide))).1⟩

/-- C10: `getGroupName` succeeds with `(ownerType, owner)` if and only if the owner-type
metric and the owner metric are both found without error and hold the strings `ownerType`
and `owner`, both non-empty; so on success it returns exactly the two stored strings, owner
type first, and neither is empty. -/
theorem getGroupName_succeeds_iff (u : Util) (sink : EntityMetricSink)
    (etype : DiscoveredEntityType) (entityKey ownerTypeString ownerString : String) :
    getGroupName u sink etype entityKey = .ok (ownerTypeString, ownerString) ↔
      (sink.GetMetric (u.GenerateEntityStateMetricUID etype entityKey .OwnerType)
          = .ok ⟨.str ownerTypeString⟩ ∧ ownerTypeString ≠ "" ∧
        sink.GetMetric (u.GenerateEntityStateMetricUID etype entityKey .Owner)
          = .ok ⟨.str ownerString⟩ ∧ ownerString ≠ "") :=
  getGroupName_ok_iff u sink etype entityKey ownerTypeString ownerString

/-! ### The two kinds of error of `getGroupName` -/

theorem kind_of_lookup_type_message (k e : String) :
    isLookupError ("Error getting owner type for pod " ++ k ++ " --> " ++ e ++ "\n") = true ∧
      isEmptyValueError ("Error getting owner type for pod " ++ k ++ " --> " ++ e ++ "\n")
        = false := by
  constructor <;> simp [isLookupError, isEmptyValueError, String.data_append, List.isPrefixOf]

theorem kind_of_lookup_owner_message (k e : String) :
    isLookupError ("Error getting owner for pod " ++ k ++ " --> " ++ e ++ "\n") = true ∧
      isEmptyValueError ("Error getting owner for pod " ++ k ++ " --> " ++ e ++ "\n")
        = false := by
  constructor <;> simp [isLookupError, isEmptyValueError, String.data_append, List.isPrefixOf]

theorem kind_of_empty_type_message (k : String) :
    isEmptyValueError ("Empty owner type for pod " ++ k ++ "\n") = true ∧
      isLookupError ("Empty owner type for pod " ++ k ++ "\n") = false := by
  constructor <;> simp [isLookupError, isEmptyValueError, String.data_append, List.isPrefixOf]

theorem kind_of_empty_owner_message (k : String) :
    isEmptyValueError ("Empty owner for pod " ++ k ++ "\n") = true ∧
      isLookupError ("Empty owner for pod " ++ k ++ "\n") = false := by
  constructor <;> simp [isLookupError, isEmptyValueError, String.data_append, List.isPrefixOf]

theorem unusable_iff (v : MetricValue) :
    (v.assertString.2 = false ∨ v.assertString.1 = "") ↔ v.isNonEmptyString = false := by
  rcases v with _ | s | t <;>
    simp [MetricValue.assertString, MetricValue.isNonEmptyString]

/-- The outcome of `getGroupName` in each of its five paths. -/
theorem getGroupName_paths (u : Util) (sink : EntityMetricSink) (etype : DiscoveredEntityType)
    (entityKey : String) :
    (∀ e, sink.GetMetric (u.GenerateEntityStateMetricUID etype entityKey .OwnerType) = .error e →
      getGroupName u sink etype entityKey =
        .error ("Error getting owner type for pod " ++ entityKey ++ " --> " ++ e ++ "\n")) ∧
    (∀ m, sink.GetMetric (u.GenerateEntityStateMetricUID etype entityKey .OwnerType) = .ok m →
      m.GetValue.isNonEmptyString = false →
      getGroupName u sink etype entityKey =
        .error ("Empty owner type for pod " ++ entityKey ++ "\n")) ∧
    (∀ m e, sink.GetMetric (u.GenerateEntityStateMetricUID etype entityKey .OwnerType) = .ok m →
      m.GetValue.isNonEmptyString = true →
      sink.GetMetric (u.GenerateEntityStateMetricUID etype entityKey .Owner) = .error e →
      getGroupName u sink etype entityKey =
        .error ("Error getting owner for pod " ++ entityKey ++ " --> " ++ e ++ "\n")) ∧
    (∀ m m', sink.GetMetric (u.GenerateEntityStateMetricUID etype entityKey .OwnerType) = .ok m →
      m.GetValue.isNonEmptyString = true →
      sink.GetMetric (u.GenerateEntityStateMetricUID etype entityKey .Owner) = .ok m' →
      m'.GetValue.isNonEmptyString = false →
      getGroupName u sink etype entityKey =
        .error ("Empty owner for pod " ++ entityKey ++ "\n")) := by
  refine ⟨?_, ?_, ?_, ?_⟩
  · intro e h
    simp [getGroupName, h]
  · intro m h hv
    have := (unusable_iff m.GetValue).2 hv
    simp only [getGroupName, h]
    simp [this]
  · intro m e h hv h2
    have hv' : ¬ (m.GetValue.assertString.2 = false ∨ m.GetValue.assertString.1 = "") := by
      rw [unusable_iff, hv]
      simp
    simp only [getGroupName, h, h2]
    simp [hv']
  · intro m m' h hv h2 hv2
    have hv' : ¬ (m.GetValue.assertString.2 = false ∨ m.GetValue.assertString.1 = "") := by
      rw [unusable_iff, hv]
      simp
    have := (unusable_iff m'.GetValue).2 hv2
    simp only [getGroupName, h, h2]
    simp [hv', this]

/-- C11 (counterexample): the owner type of pod `ns1/pod4` is stored as the empty string
and its owner metric is absent, so the lookup of the owner metric fails; `getGroupName`
returns "Empty owner type ...", which is the empty-value kind and not the lookup kind. -/
theorem lookup_failure_error_kind_counterexample :
    emptyTypeNoOwnerSink.lookupFails
        (sampleUtil.GenerateEntityStateMetricUID .PodType "ns1/pod4" .Owner) = true ∧
      errorOf (getGroupName sampleUtil emptyTypeNoOwnerSink .PodType "ns1/pod4") =
        some "Empty owner type for pod ns1/pod4\n" ∧
      isLookupError "Empty owner type for pod ns1/pod4\n" = false ∧
      isEmptyValueError "Empty owner type for pod ns1/pod4\n" = true := by
  decide

/-- C11 (amended): if the lookup of the owner-type metric or of the owner metric fails,
`getGroupName` fails, and its error is of the lookup kind ("Error getting owner ...") and
not of the empty-value kind, unless the owner-type lookup succeeded with a value that is
missing, not a string or the empty string: then the error is of the empty-value kind
("Empty owner type ..."), the owner type being validated before the owner is looked up. -/
theorem lookup_failure_error_kind (u : Util) (sink : EntityMetricSink)
    (etype : DiscoveredEntityType) (entityKey : String)
    (h : sink.lookupFails (u.GenerateEntityStateMetricUID etype entityKey .OwnerType) = true ∨
      sink.lookupFails (u.GenerateEntityStateMetricUID etype entityKey .Owner) = true) :
    ∃ msg, getGroupName u sink etype entityKey = .error msg ∧
      (if sink.valueUnusable (u.GenerateEntityStateMetricUID etype entityKey .OwnerType) = true
        then isEmptyValueError msg = true ∧ isLookupError msg = false
        else isLookupError msg = true ∧ isEmptyValueError msg = false) := by
  obtain ⟨p1, p2, p3, -⟩ := getGroupName_paths u sink etype entityKey
  rcases h1 : sink.GetMetric (u.GenerateEntityStateMetricUID etype entityKey .OwnerType)
    with e | m
  · refine ⟨_, p1 e h1, ?_⟩
    simp only [EntityMetricSink.valueUnusable, h1, Bool.false_eq_true, if_false]
    exact kind_of_lookup_type_message entityKey e
  · rcases hv : m.GetValue.isNonEmptyString with _ | _
    · refine ⟨_, p2 m h1 hv, ?_⟩
      simp only [EntityMetricSink.valueUnusable, h1, hv, Bool.not_false, if_true]
      exact kind_of_empty_type_message entityKey
    · rcases h with h | h
      · simp [EntityMetricSink.lookupFails, h1] at h
      · rcases h2 : sink.GetMetric (u.GenerateEntityStateMetricUID etype entityKey .Owner)
          with e | m'
        · refine ⟨_, p3 m e h1 hv h2, ?_⟩
          simp only [EntityMetricSink.valueUnusable, h1, hv, Bool.not_true,
            Bool.false_eq_true, if_false]
          exact kind_of_lookup_owner_message entityKey e
        · simp [EntityMetricSink.lookupFails, h2] at h

/-- C11 (witness): pod `ns1/pod5` has no owner-type metric in the example store; the call
fails with an error of the lookup kind. -/
theorem lookup_failure_error_kind_witness :
    sampleSink.lookupFails
        (sampleUtil.GenerateEntityStateMetricUID .PodType "ns1/pod5" .OwnerType) = true ∧
    ∃ msg, getGroupName sampleUtil sampleSink .PodType "ns1/pod5" = .error msg ∧
      (if sampleSink.valueUnusable
          (sampleUtil.GenerateEntityStateMetricUID .PodType "ns1/pod5" .OwnerType) = true
        then isEmptyValueError msg = true ∧ isLookupError msg = false
        else isLookupError msg = true ∧ isEmptyValueError msg = false) :=
  ⟨by decide,
    lookup_failure_error_kind sampleUtil sampleSink .PodType "ns1/pod5" (Or.inl (by decide))⟩

/-- C12: if either resolved value is missing, not a string or the empty string,
`getGroupName` fails with an error of the empty-value kind ("Empty owner ..."), not of the
lookup kind. A value is resolved when the lookups that lead to it succeed: the owner type
when its lookup succeeds, the owner when both lookups succeed, the owner being read only
after the owner-type lookup. -/
theorem unusable_value_error_kind (u : Util) (sink : EntityMetricSink)
    (etype : DiscoveredEntityType) (entityKey : String)
    (h : sink.valueUnusable (u.GenerateEntityStateMetricUID etype entityKey .OwnerType) = true ∨
      (sink.lookupFails (u.GenerateEntityStateMetricUID etype entityKey .OwnerType) = false ∧
        sink.valueUnusable (u.GenerateEntityStateMetricUID etype entityKey .Owner) = true)) :
    ∃ msg, getGroupName u sink etype entityKey = .error msg ∧
      isEmptyValueError msg = true ∧ isLookupError msg = false := by
  obtain ⟨-, p2, -, p4⟩ := getGroupName_paths u sink etype entityKey
  rcases h1 : sink.GetMetric (u.GenerateEntityStateMetricUID etype entityKey .OwnerType)
    with e | m
  · rcases h with h | h
    · simp [EntityMetricSink.valueUnusable, h1] at h
    · simp [EntityMetricSink.lookupFails, h1] at h
  · rcases hv : m.GetValue.isNonEmptyString with _ | _
    · exact ⟨_, p2 m h1 hv, kind_of_empty_type_message entityKey⟩
    · rcases h with h | h
      · simp [EntityMetricSink.valueUnusable, h1, hv] at h
      · rcases h2 : sink.GetMetric (u.GenerateEntityStateMetricUID etype entityKey .Owner)
          with e | m'
        · simp [EntityMetricSink.valueUnusable, h2] at h
        · have hv2 : m'.GetValue.isNonEmptyString = false := by
            simpa [EntityMetricSink.valueUnusable, h2] using h.2
          exact ⟨_, p4 m m' h1 hv h2 hv2, kind_of_empty_owner_message entityKey⟩

/-- C12 (witness): pod `ns1/pod4` of the example store has owner type `Job` and the empty
string as owner: both lookups succeed, the owner is unusable, and the call fails with an
error of the empty-value kind. -/
theorem unusable_value_error_kind_witness :
    (sampleSink.lookupFails
        (sampleUtil.GenerateEntityStateMetricUID .PodType "ns1/pod4" .OwnerType) = false ∧
      sampleSink.valueUnusable
        (sampleUtil.GenerateEntityStateMetricUID .PodType "ns1/pod4" .Owner) = true) ∧
    ∃ msg, getGroupName sampleUtil sampleSink .PodType "ns1/pod4" = .error msg ∧
      isEmptyValueError msg = true ∧ isLookupError msg = false :=
  ⟨by decide,
    unusable_value_error_kind sampleUtil sampleSink .PodType "ns1/pod4" (Or.inr (by decide))⟩

/-! ### The example of the specification -/

theorem example_resolveAll (u : Util) (sink : EntityMetricSink)
    (h1 : ownerOf u sink examplePod1 = .ok ("ReplicaSet", "rs-a"))
    (h2 : ownerOf u sink examplePod2 = .ok ("ReplicaSet", "rs-a"))
    (h3 : ownerOf u sink examplePod3 = .ok ("DaemonSet", "ds-b")) :
    resolveAll u sink exampleBatch =
      [⟨"ReplicaSet", "rs-a", examplePod1⟩, ⟨"ReplicaSet", "rs-a", examplePod2⟩,
        ⟨"DaemonSet", "ds-b", examplePod3⟩] := by
  simp [resolveAll, exampleBatch, resolveOne, h1, h2, h3]

theorem example_listRun (u : Util) :
    listRun u [⟨"ReplicaSet", "rs-a", examplePod1⟩, ⟨"ReplicaSet", "rs-a", examplePod2⟩,
        ⟨"DaemonSet", "ds-b", examplePod3⟩] =
      [applyInst u examplePod2 (applyInst u examplePod1
          (NewEntityGroup "ReplicaSet" "rs-a" "ReplicaSet/ns1/rs-a")),
        applyKind u examplePod2 (applyKind u examplePod1
          (NewEntityGroup "ReplicaSet" "" "ReplicaSet")),
        applyInst u examplePod3 (NewEntityGroup "DaemonSet" "ds-b" "DaemonSet/ns1/ds-b"),
        applyKind u examplePod3 (NewEntityGroup "DaemonSet" "" "DaemonSet")] := by
  simp [listRun, listStep, applyUnit, Resolved.groupKey, groupKeyOf, scopeTag_New_inst,
    scopeTag_New_kind, examplePod1, examplePod2, examplePod3]

theorem example_containerIds (u : Util) :
    containerIds u examplePod1 = [u.ContainerIdFunc "uid1" 0, u.ContainerIdFunc "uid1" 1] ∧
      containerIds u examplePod2 = [u.ContainerIdFunc "uid2" 0] ∧
      containerIds u examplePod3 = [] := by
  refine ⟨?_, ?_, ?_⟩ <;>
    simp [containerIds, examplePod1, examplePod2, examplePod3, List.range_succ]

theorem example_containerIdsNamed (u : Util) (n : String) :
    containerIdsNamed u examplePod1 n =
        (if n = "c1" then [u.ContainerIdFunc "uid1" 0]
          else if n = "c2" then [u.ContainerIdFunc "uid1" 1] else []) ∧
      containerIdsNamed u examplePod2 n =
        (if n = "c1" then [u.ContainerIdFunc "uid2" 0] else []) ∧
      containerIdsNamed u examplePod3 n = [] := by
  by_cases h1 : n = "c1"
  · subst h1
    simp [containerIdsNamed, examplePod1, examplePod2, examplePod3, List.enum, List.enumFrom,
      List.filter_cons]
  · by_cases h2 : n = "c2"
    · subst h2
      simp [containerIdsNamed, examplePod1, examplePod2, examplePod3, List.enum,
        List.enumFrom, List.filter_cons]
    · have h1' : ¬ "c1" = n := fun h => h1 h.symm
      have h2' : ¬ "c2" = n := fun h => h2 h.symm
      simp [containerIdsNamed, examplePod1, examplePod2, examplePod3, List.enum,
        List.enumFrom, List.filter_cons, h1, h2, h1', h2']

/-- C13: on the example batch of the specification (pod1 and pod2 owned by ReplicaSet rs-a
with containers c1, c2 and c1, pod3 owned by DaemonSet ds-b with no container, all in ns1)
the output is exactly four groups: `ReplicaSet/ns1/rs-a` with no pod member, the three
container ids as members and the buckets c1 and c2; kind-scoped `ReplicaSet` with the two
pods and the three container ids; `DaemonSet/ns1/ds-b` with no member and no bucket;
kind-scoped `DaemonSet` with pod3 and no container member; no other bucket exists. -/
theorem spec_example_output (u : Util) (sink : EntityMetricSink) (workerId : String)
    (h1 : ownerOf u sink examplePod1 = .ok ("ReplicaSet", "rs-a"))
    (h2 : ownerOf u sink examplePod2 = .ok ("ReplicaSet", "rs-a"))
    (h3 : ownerOf u sink examplePod3 = .ok ("DaemonSet", "ds-b")) :
    (CollectGroupMetrics u ⟨exampleBatch, sink, workerId⟩).map
        (fun g => (g.kind, g.name, g.key)) =
      [("ReplicaSet", "rs-a", "ReplicaSet/ns1/rs-a"), ("ReplicaSet", "", "ReplicaSet"),
        ("DaemonSet", "ds-b", "DaemonSet/ns1/ds-b"), ("DaemonSet", "", "DaemonSet")] ∧
    (CollectGroupMetrics u ⟨exampleBatch, sink, workerId⟩).map
        (fun g => g.members .PodType) =
      [[], ["uid1", "uid2"], [], ["uid3"]] ∧
    (CollectGroupMetrics u ⟨exampleBatch, sink, workerId⟩).map
        (fun g => g.members .ContainerType) =
      [[u.ContainerIdFunc "uid1" 0, u.ContainerIdFunc "uid1" 1, u.ContainerIdFunc "uid2" 0],
        [u.ContainerIdFunc "uid1" 0, u.ContainerIdFunc "uid1" 1, u.ContainerIdFunc "uid2" 0],
        [], []] ∧
    ∀ n, (CollectGroupMetrics u ⟨exampleBatch, sink, workerId⟩).map
        (fun g => g.ContainerGroups n) =
      [if n = "c1" then some [u.ContainerIdFunc "uid1" 0, u.ContainerIdFunc "uid2" 0]
        else if n = "c2" then some [u.ContainerIdFunc "uid1" 1] else none,
        none, none, none] := by
  rw [CollectGroupMetrics_eq_listRun]
  simp only [example_resolveAll u sink h1 h2 h3, example_listRun u]
  obtain ⟨a1, a2, a3, a4, a5, a6⟩ := applyInst_fields u examplePod1
    (NewEntityGroup "ReplicaSet" "rs-a" "ReplicaSet/ns1/rs-a")
  obtain ⟨b1, b2, b3, b4, b5, b6⟩ := applyInst_fields u examplePod2 (applyInst u examplePod1
    (NewEntityGroup "ReplicaSet" "rs-a" "ReplicaSet/ns1/rs-a"))
  obtain ⟨c1, c2, c3, c4, c5, c6⟩ := applyKind_fields u examplePod1
    (NewEntityGroup "ReplicaSet" "" "ReplicaSet")
  obtain ⟨d1, d2, d3, d4, d5, d6⟩ := applyKind_fields u examplePod2 (applyKind u examplePod1
    (NewEntityGroup "ReplicaSet" "" "ReplicaSet"))
  obtain ⟨e1, e2, e3, e4, e5, e6⟩ := applyInst_fields u examplePod3
    (NewEntityGroup "DaemonSet" "ds-b" "DaemonSet/ns1/ds-b")
  obtain ⟨f1, f2, f3, f4, f5, f6⟩ := applyKind_fields u examplePod3
    (NewEntityGroup "DaemonSet" "" "DaemonSet")
  obtain ⟨i1, i2, i3⟩ := example_containerIds u
  refine ⟨?_, ?_, ?_, ?_⟩
  · simp only [List.map_cons, List.map_nil, a1, a2, a3, b1, b2, b3, c1, c2, c3, d1, d2, d3,
      e1, e2, e3, f1, f2, f3]
    rfl
  · simp only [List.map_cons, List.map_nil, a4, b4, c5, d5, e4, f5]
    rfl
  · simp only [List.map_cons, List.map_nil, a5, b5, c6, d6, e5, f6, i1, i2, i3]
    rfl
  · intro n
    obtain ⟨j1, j2, j3⟩ := example_containerIdsNamed u n
    simp only [List.map_cons, List.map_nil, a6 n, b6 n, c4, d4, e6 n, f4, j1, j2, j3]
    by_cases hn1 : n = "c1"
    · subst hn1
      simp [NewEntityGroup, GoMap.empty]
    · by_cases hn2 : n = "c2"
      · subst hn2
        simp [NewEntityGroup, GoMap.empty]
      · simp [hn1, hn2, NewEntityGroup, GoMap.empty]

/-- C13 (witness): the example batch with the identifier functions and the store of the
example; the container ids are `uid1-0`, `uid1-1` and `uid2-0`. -/
theorem spec_example_output_witness :
    ownerOf sampleUtil sampleSink examplePod1 = .ok ("ReplicaSet", "rs-a") ∧
    ownerOf sampleUtil sampleSink examplePod2 = .ok ("ReplicaSet", "rs-a") ∧
    ownerOf sampleUtil sampleSink examplePod3 = .ok ("DaemonSet", "ds-b") ∧
    (CollectGroupMetrics sampleUtil ⟨exampleBatch, sampleSink, "w0"⟩).map
        (fun g => g.members .ContainerType) =
      [["uid1-0", "uid1-1", "uid2-0"], ["uid1-0", "uid1-1", "uid2-0"], [], []] :=
  ⟨rfl, rfl, rfl, (spec_example_output sampleUtil sampleSink "w0" rfl rfl rfl).2.2.1⟩

/-- C14: a kind-scoped group of the output has an empty `ContainerGroups` map: the
sub-groups by container name are filled on instance-scoped groups only. -/
theorem kind_group_has_no_bucket (u : Util) (c : GroupMetricsCollector) (g : EntityGroup)
    (hg : g ∈ CollectGroupMetrics u c) (hname : g.name = "") :
    ∀ n, g.ContainerGroups n = none := by
  rw [CollectGroupMetrics_eq_listRun] at hg
  have hc := content_listRun u _ (resolved_names_ne u c) g hg
  unfold GroupContent at hc
  rw [if_pos hname] at hc
  exact hc.2.2

/-- C14 (witness): the kind-scoped group `ReplicaSet` of the example batch, whose units
have containers, has no bucket for `c1`. -/
theorem kind_group_has_no_bucket_witness :
    ((CollectGroupMetrics sampleUtil sampleCollector).get ⟨1, by decide⟩).key = "ReplicaSet" ∧
    ((CollectGroupMetrics sampleUtil sampleCollector).get ⟨1, by decide⟩).name = "" ∧
    ((CollectGroupMetrics sampleUtil sampleCollector).get ⟨1, by decide⟩).ContainerGroups "c1"
      = none :=
  ⟨by decide, by decide,
    kind_group_has_no_bucket sampleUtil sampleCollector _ (List.get_mem _ 1 (by decide))
      (by decide) "c1"⟩

theorem mem_containerIds_iff {u : Util} {pod : Pod} {m : String} :
    m ∈ containerIds u pod ↔
      ∃ i, i < pod.Spec.Containers.length ∧ m = u.ContainerIdFunc pod.UID i := by
  unfold containerIds
  simp only [List.mem_map, List.mem_range]
  constructor
  · rintro ⟨i, hi, rfl⟩
    exact ⟨i, hi, rfl⟩
  · rintro ⟨i, hi, rfl⟩
    exact ⟨i, hi, rfl⟩

theorem mem_containerIdsNamed_iff {u : Util} {pod : Pod} {n m : String} :
    m ∈ containerIdsNamed u pod n ↔
      ∃ i ct, pod.Spec.Containers[i]? = some ct ∧ ct.Name = n ∧
        m = u.ContainerIdFunc pod.UID i := by
  unfold containerIdsNamed
  simp only [List.mem_map, List.mem_filter, decide_eq_true_eq]
  constructor
  · rintro ⟨⟨i, ct⟩, ⟨hmem, hname⟩, rfl⟩
    exact ⟨i, ct, List.mk_mem_enum_iff_getElem?.1 hmem, hname, rfl⟩
  · rintro ⟨i, ct, hget, hname, rfl⟩
    exact ⟨(i, ct), ⟨List.mk_mem_enum_iff_getElem?.2 hget, hname⟩, rfl⟩

/-- C18: no group of the output has a spurious member. A container-type member of an
instance-scoped group is `ContainerIdFunc(uid, i)` for a resolvable unit of the batch with
the key of the group and a container index `i` of it, and an identifier in its bucket `n`
is such an identifier with container `i` named `n`; a container-type member of a
kind-scoped group is such an identifier for a resolvable unit of the kind of the group; a
pod-type member of a kind-scoped group is the id of a resolvable unit of that kind. -/
theorem no_spurious_member (u : Util) (c : GroupMetricsCollector) (g : EntityGroup)
    (hg : g ∈ CollectGroupMetrics u c) :
    (g.name ≠ "" →
      (∀ m ∈ g.members .ContainerType, ∃ r ∈ resolveAll u c.MetricsSink c.PodList,
        groupKeyOf r.ownerKind r.pod.Namespace r.ownerName = g.key ∧
        ∃ i, i < r.pod.Spec.Containers.length ∧ m = u.ContainerIdFunc r.pod.UID i) ∧
      (∀ n bucket, g.ContainerGroups n = some bucket → ∀ m ∈ bucket,
        ∃ r ∈ resolveAll u c.MetricsSink c.PodList,
          groupKeyOf r.ownerKind r.pod.Namespace r.ownerName = g.key ∧
          ∃ i ct, r.pod.Spec.Containers[i]? = some ct ∧ ct.Name = n ∧
            m = u.ContainerIdFunc r.pod.UID i)) ∧
    (g.name = "" →
      (∀ m ∈ g.members .ContainerType, ∃ r ∈ resolveAll u c.MetricsSink c.PodList,
        r.ownerKind = g.kind ∧
        ∃ i, i < r.pod.Spec.Containers.length ∧ m = u.ContainerIdFunc r.pod.UID i) ∧
      (∀ m ∈ g.members .PodType, ∃ r ∈ resolveAll u c.MetricsSink c.PodList,
        r.ownerKind = g.kind ∧ m = r.pod.UID)) := by
  rw [CollectGroupMetrics_eq_listRun] at hg
  have hc := content_listRun u _ (resolved_names_ne u c) g hg
  have hs := shape_listRun u _ (resolved_ne_empty u c) g hg
  unfold GroupContent at hc
  constructor
  · intro hname
    rw [if_neg hname] at hc
    obtain ⟨-, c2, c3⟩ := hc
    constructor
    · intro m hm
      rw [c2] at hm
      unfold instMembersOf at hm
      obtain ⟨r, hr, hmr⟩ := List.mem_flatMap.1 hm
      obtain ⟨hr1, hr2⟩ := List.mem_filter.1 hr
      exact ⟨r, hr1, by simpa [Resolved.groupKey] using hr2, mem_containerIds_iff.1 hmr⟩
    · intro n bucket hb m hm
      rw [c3 n] at hb
      split at hb
      · cases hb
      · have hb' := Option.some.inj hb
        rw [← hb'] at hm
        unfold bucketOf at hm
        obtain ⟨r, hr, hmr⟩ := List.mem_flatMap.1 hm
        obtain ⟨hr1, hr2⟩ := List.mem_filter.1 hr
        exact ⟨r, hr1, by simpa [Resolved.groupKey] using hr2,
          mem_containerIdsNamed_iff.1 hmr⟩
  · intro hname
    rw [if_pos hname] at hc
    obtain ⟨c1, c2, -⟩ := hc
    have hkey : g.key = g.kind := by
      obtain ⟨-, h | h⟩ := hs
      · exact h.2
      · exact absurd hname h.1
    constructor
    · intro m hm
      rw [c2] at hm
      unfold kindMembersOf at hm
      obtain ⟨r, hr, hmr⟩ := List.mem_flatMap.1 hm
      obtain ⟨hr1, hr2⟩ := List.mem_filter.1 hr
      refine ⟨r, hr1, ?_, mem_containerIds_iff.1 hmr⟩
      rw [← hkey]
      simpa using hr2
    · intro m hm
      rw [c1] at hm
      unfold kindPodsOf at hm
      obtain ⟨r, hr, hmr⟩ := List.mem_map.1 hm
      obtain ⟨hr1, hr2⟩ := List.mem_filter.1 hr
      refine ⟨r, hr1, ?_, hmr.symm⟩
      rw [← hkey]
      simpa using hr2

/-- C18 (witness): the two pod-type members of the kind-scoped group `ReplicaSet` of the
example batch are ids of resolvable units of kind `ReplicaSet`. -/
theorem no_spurious_member_witness :
    ((CollectGroupMetrics sampleUtil sampleCollector).get ⟨1, by decide⟩).name = "" ∧
    ∀ m ∈ ((CollectGroupMetrics sampleUtil sampleCollector).get ⟨1, by decide⟩).members
        .PodType,
      ∃ r ∈ resolveAll sampleUtil sampleCollector.MetricsSink sampleCollector.PodList,
        r.ownerKind =
          ((CollectGroupMetrics sampleUtil sampleCollector).get ⟨1, by decide⟩).kind ∧
        m = r.pod.UID :=
  ⟨by decide,
    ((no_spurious_member sampleUtil sampleCollector _ (List.get_mem _ 1 (by decide))).2
      (by decide)).2⟩

theorem nodup_tags_listRun (u : Util) (c : GroupMetricsCollector) :
    ((listRun u (resolveAll u c.MetricsSink c.PodList)).map EntityGroup.scopeTag).Nodup := by
  rw [map_scopeTag_listRun u _ (resolved_names_ne u c)]
  exact nodup_keepFirst _

theorem group_eq_of_tag_eq (u : Util) (c : GroupMetricsCollector) {g g' : EntityGroup}
    (hg : g ∈ listRun u (resolveAll u c.MetricsSink c.PodList))
    (hg' : g' ∈ listRun u (resolveAll u c.MetricsSink c.PodList))
    (h : g.scopeTag = g'.scopeTag) : g = g' :=
  List.inj_on_of_nodup_map (nodup_tags_listRun u c) hg hg' h

/-- C17: the group key is injective on triples whose kind and namespace contain no slash;
so in a batch in which no resolved owner kind and no namespace of a resolvable unit
contains a slash, two resolvable units are folded into the same instance-scoped group if
and only if they have the same `(ownerKind, namespace, ownerName)` triple, and no
instance-scoped group has the key of a kind-scoped group. -/
theorem group_key_injective (u : Util) (c : GroupMetricsCollector)
    (hslash : ∀ r ∈ resolveAll u c.MetricsSink c.PodList,
      '/' ∉ r.ownerKind.data ∧ '/' ∉ r.pod.Namespace.data) :
    (∀ k ns n k' ns' n' : String, '/' ∉ k.data → '/' ∉ ns.data → '/' ∉ k'.data →
      '/' ∉ ns'.data → groupKeyOf k ns n = groupKeyOf k' ns' n' →
      k = k' ∧ ns = ns' ∧ n = n') ∧
    (∀ r ∈ resolveAll u c.MetricsSink c.PodList,
      ∀ r' ∈ resolveAll u c.MetricsSink c.PodList,
        ((∃ g ∈ CollectGroupMetrics u c, g.name ≠ "" ∧
            g.key = groupKeyOf r.ownerKind r.pod.Namespace r.ownerName ∧
            g.key = groupKeyOf r'.ownerKind r'.pod.Namespace r'.ownerName) ↔
          (r.ownerKind, r.pod.Namespace, r.ownerName) =
            (r'.ownerKind, r'.pod.Namespace, r'.ownerName))) ∧
    (∀ g ∈ CollectGroupMetrics u c, ∀ g' ∈ CollectGroupMetrics u c,
      g.name ≠ "" → g'.name = "" → g.key ≠ g'.key) := by
  have hn := resolved_names_ne u c
  refine ⟨fun k ns n k' ns' n' h1 h2 h3 h4 h => groupKeyOf_inj h1 h2 h3 h4 h, ?_, ?_⟩
  · intro r hr r' hr'
    constructor
    · rintro ⟨g, -, -, h1, h2⟩
      obtain ⟨e1, e2, e3⟩ := groupKeyOf_inj (hslash r hr).1 (hslash r hr).2 (hslash r' hr').1
        (hslash r' hr').2 (h1.symm.trans h2)
      rw [e1, e2, e3]
    · intro h
      simp only [Prod.mk.injEq] at h
      obtain ⟨e1, e2, e3⟩ := h
      rw [CollectGroupMetrics_eq_listRun]
      obtain ⟨g, hg, ht⟩ := exists_group_of_tag (u := u) hn hr
        (t := (false, r.groupKey)) (by simp [unitTags])
      obtain ⟨hname, hkey⟩ := scopeTag_eq_false_iff.1 ht
      refine ⟨g, hg, hname, hkey, ?_⟩
      rw [hkey, ← e1, ← e2, ← e3]
      rfl
  · intro g hg g' hg' hname hname' heq
    rw [CollectGroupMetrics_eq_listRun] at hg hg'
    have t1 : (false, g.key) ∈ (listRun u (resolveAll u c.MetricsSink c.PodList)).map
        EntityGroup.scopeTag :=
      List.mem_map.2 ⟨g, hg, scopeTag_eq_false_iff.2 ⟨hname, rfl⟩⟩
    have t2 : (true, g'.key) ∈ (listRun u (resolveAll u c.MetricsSink c.PodList)).map
        EntityGroup.scopeTag :=
      List.mem_map.2 ⟨g', hg', scopeTag_eq_true_iff.2 ⟨hname', rfl⟩⟩
    obtain ⟨r, hr, ht⟩ := (mem_tags_listRun hn _).1 t1
    obtain ⟨r', hr', ht'⟩ := (mem_tags_listRun hn _).1 t2
    simp only [unitTags, List.mem_cons, Prod.mk.injEq, Bool.false_eq_true, false_and,
      List.mem_singleton, or_false, true_and, Bool.true_eq_false, List.not_mem_nil,
      false_or] at ht ht'
    have := slash_mem_groupKeyOf r.ownerKind r.pod.Namespace r.ownerName
    rw [← Resolved.groupKey, ← ht, heq, ht'] at this
    exact (hslash r' hr').1 this

/-- C17 (witness): in the example batch no owner kind and no namespace has a slash; pod1
and pod2 have the same owner triple and share the group `ReplicaSet/ns1/rs-a`. -/
theorem group_key_injective_witness :
    (∀ r ∈ resolveAll sampleUtil sampleCollector.MetricsSink sampleCollector.PodList,
      '/' ∉ r.ownerKind.data ∧ '/' ∉ r.pod.Namespace.data) ∧
    ∃ g ∈ CollectGroupMetrics sampleUtil sampleCollector, g.name ≠ "" ∧
      g.key = "ReplicaSet/ns1/rs-a" ∧ g.key = "ReplicaSet/ns1/rs-a" :=
  ⟨by decide,
    ((group_key_injective sampleUtil sampleCollector (by decide)).2.1
      ⟨"ReplicaSet", "rs-a", ⟨"uid1", "ns1", "pod1", ⟨[⟨"c1"⟩, ⟨"c2"⟩]⟩⟩⟩ (by decide)
      ⟨"ReplicaSet", "rs-a", ⟨"uid2", "ns1", "pod2", ⟨[⟨"c1"⟩]⟩⟩⟩ (by decide)).2 rfl⟩

theorem resolveAll_append (u : Util) (sink : EntityMetricSink) (xs ys : List Pod) :
    resolveAll u sink (xs ++ ys) = resolveAll u sink xs ++ resolveAll u sink ys := by
  simp [resolveAll, List.filterMap_append]

theorem resolveAll_singleton {u : Util} {sink : EntityMetricSink} {p : Pod} {r : Resolved}
    (hr : resolveOne u sink p = some r) : resolveAll u sink [p] = [r] := by
  simp [resolveAll, hr]

theorem mem_tags_iff_exists_inst (l : List EntityGroup) (key : String) :
    (false, key) ∈ l.map EntityGroup.scopeTag ↔ ∃ g ∈ l, g.name ≠ "" ∧ g.key = key := by
  simp only [List.mem_map, scopeTag_eq_false_iff]

theorem mem_tags_iff_exists_kind (l : List EntityGroup) (key : String) :
    (true, key) ∈ l.map EntityGroup.scopeTag ↔ ∃ g ∈ l, g.name = "" ∧ g.key = key := by
  simp only [List.mem_map, scopeTag_eq_true_iff]

/-- The loop body on the list, with the two appended groups made explicit. -/
theorem listStep_eq_append (u : Util) (l : List EntityGroup) (r : Resolved)
    (hn : r.ownerName ≠ "") :
    listStep u l r =
      ((l ++ (if ∃ g ∈ l, g.name ≠ "" ∧ g.key = r.groupKey then []
              else [NewEntityGroup r.ownerKind r.ownerName r.groupKey])) ++
          (if ∃ g ∈ l, g.name = "" ∧ g.key = r.ownerKind then []
            else [NewEntityGroup r.ownerKind "" r.ownerKind])).map (applyUnit u r) := by
  simp only [listStep]
  by_cases h1 : (false, r.groupKey) ∈ l.map EntityGroup.scopeTag
  · have h1' := (mem_tags_iff_exists_inst l r.groupKey).1 h1
    simp only [if_pos h1, if_pos h1', List.append_nil]
    by_cases h2 : (true, r.ownerKind) ∈ l.map EntityGroup.scopeTag
    · simp only [if_pos h2, if_pos ((mem_tags_iff_exists_kind l r.ownerKind).1 h2),
        List.append_nil]
    · simp only [if_neg h2,
        if_neg (fun h => h2 ((mem_tags_iff_exists_kind l r.ownerKind).2 h))]
  · have h1' : ¬ ∃ g ∈ l, g.name ≠ "" ∧ g.key = r.groupKey := fun h =>
      h1 ((mem_tags_iff_exists_inst l r.groupKey).2 h)
    simp only [if_neg h1, if_neg h1']
    have hiff : (true, r.ownerKind) ∈
        (l ++ [NewEntityGroup r.ownerKind r.ownerName r.groupKey]).map EntityGroup.scopeTag ↔
        (true, r.ownerKind) ∈ l.map EntityGroup.scopeTag := by
      simp [scopeTag_New_inst hn]
    by_cases h2 : (true, r.ownerKind) ∈ l.map EntityGroup.scopeTag
    · simp only [if_pos (hiff.2 h2), if_pos ((mem_tags_iff_exists_kind l r.ownerKind).1 h2),
        List.append_nil]
    · simp only [if_neg (fun h => h2 (hiff.1 h)),
        if_neg (fun h => h2 ((mem_tags_iff_exists_kind l r.ownerKind).2 h))]

theorem applyUnit_no_container (u : Util) (r : Resolved) (hzero : r.pod.Spec.Containers = [])
    (g : EntityGroup) :
    applyUnit u r g =
      if g.name = "" ∧ g.key = r.ownerKind then g.AddMember .PodType r.pod.UID else g := by
  unfold applyUnit applyInst applyKind
  rw [hzero]
  simp only [List.enum_nil, List.foldl_nil]
  by_cases h1 : g.scopeTag = (false, r.groupKey)
  · have := scopeTag_eq_false_iff.1 h1
    rw [if_pos h1, if_neg (fun h => this.1 h.1)]
  · rw [if_neg h1]
    by_cases h2 : g.scopeTag = (true, r.ownerKind)
    · rw [if_pos h2, if_pos (scopeTag_eq_true_iff.1 h2)]
    · rw [if_neg h2, if_neg (fun h => h2 (scopeTag_eq_true_iff.2 h))]

theorem CollectGroupMetrics_snoc (u : Util) (sink : EntityMetricSink) (w w' : String)
    (xs : List Pod) (p : Pod) (r : Resolved) (hr : resolveOne u sink p = some r) :
    CollectGroupMetrics u ⟨xs ++ [p], sink, w⟩ =
      listStep u (CollectGroupMetrics u ⟨xs, sink, w'⟩) r := by
  rw [CollectGroupMetrics_eq_listRun, CollectGroupMetrics_eq_listRun]
  simp only [resolveAll_append, resolveAll_singleton hr, listRun_append_singleton]

/-- C15: for a batch `xs` and a unit `p` with a resolvable owner `(k, n)` and no container,
the output for `xs` followed by `p` is the output for `xs`, followed by the instance-scoped
group and the kind-scoped group of `p` when they did not exist (both new, without
container member and bucket), in which the id of `p` is added to the pod-type members of
the kind-scoped group of key `k`. So every group of the output for `xs` keeps its position,
kind, name, key, container-type members and buckets. -/
theorem zero_container_unit_frame (u : Util) (sink : EntityMetricSink) (w : String)
    (xs : List Pod) (p : Pod) (k n : String)
    (hown : ownerOf u sink p = .ok (k, n)) (hzero : p.Spec.Containers = []) :
    CollectGroupMetrics u ⟨xs ++ [p], sink, w⟩ =
        ((CollectGroupMetrics u ⟨xs, sink, w⟩ ++
            (if ∃ g ∈ CollectGroupMetrics u ⟨xs, sink, w⟩,
                g.name ≠ "" ∧ g.key = groupKeyOf k p.Namespace n then []
              else [NewEntityGroup k n (groupKeyOf k p.Namespace n)])) ++
            (if ∃ g ∈ CollectGroupMetrics u ⟨xs, sink, w⟩, g.name = "" ∧ g.key = k then []
              else [NewEntityGroup k "" k])).map
          (fun g => if g.name = "" ∧ g.key = k then g.AddMember .PodType p.UID else g) ∧
      ∀ (i : Nat) (g : EntityGroup), (CollectGroupMetrics u ⟨xs, sink, w⟩)[i]? = some g →
        ∃ g', (CollectGroupMetrics u ⟨xs ++ [p], sink, w⟩)[i]? = some g' ∧
          g'.kind = g.kind ∧ g'.name = g.name ∧ g'.key = g.key ∧
          g'.members .ContainerType = g.members .ContainerType ∧
          g'.ContainerGroups = g.ContainerGroups := by
  have hr : resolveOne u sink p = some ⟨k, n, p⟩ := resolveOne_eq_some.2 ⟨hown, rfl⟩
  have hn : n ≠ "" := (ownerOf_ne_empty hown).2
  have hstep := CollectGroupMetrics_snoc u sink w w xs p ⟨k, n, p⟩ hr
  rw [listStep_eq_append u _ ⟨k, n, p⟩ hn] at hstep
  have hfun : applyUnit u ⟨k, n, p⟩ =
      fun g => if g.name = "" ∧ g.key = k then g.AddMember .PodType p.UID else g := by
    funext g
    exact applyUnit_no_container u ⟨k, n, p⟩ hzero g
  rw [hfun] at hstep
  refine ⟨hstep, ?_⟩
  intro i g hi
  have hlt : i < (CollectGroupMetrics u ⟨xs, sink, w⟩).length := by
    rcases Nat.lt_or_ge i (CollectGroupMetrics u ⟨xs, sink, w⟩).length with h | h
    · exact h
    · rw [List.getElem?_eq_none h] at hi
      cases hi
  have hget : (CollectGroupMetrics u ⟨xs ++ [p], sink, w⟩)[i]? =
      some (if g.name = "" ∧ g.key = k then g.AddMember .PodType p.UID else g) := by
    rw [hstep, List.getElem?_map, List.append_assoc, List.getElem?_append_left hlt, hi]
    rfl
  refine ⟨_, hget, ?_⟩
  split <;> simp [EntityGroup.AddMember]

/-- C15 (witness): pod3 of the example, owned by DaemonSet ds-b and without container,
after pod1 and pod2: the group `ReplicaSet/ns1/rs-a` keeps its container-type members. -/
theorem zero_container_unit_frame_witness :
    ownerOf sampleUtil sampleSink examplePod3 = .ok ("DaemonSet", "ds-b") ∧
    examplePod3.Spec.Containers = [] ∧
    ∃ g', (CollectGroupMetrics sampleUtil
        ⟨[examplePod1, examplePod2] ++ [examplePod3], sampleSink, "w0"⟩)[0]? = some g' ∧
      g'.members .ContainerType = ["uid1-0", "uid1-1", "uid2-0"] :=
  ⟨rfl, rfl,
    match (zero_container_unit_frame sampleUtil sampleSink "w0" [examplePod1, examplePod2]
      examplePod3 "DaemonSet" "ds-b" rfl rfl).2 0
      ((CollectGroupMetrics sampleUtil ⟨[examplePod1, examplePod2], sampleSink, "w0"⟩).get
        ⟨0, by decide⟩) rfl with
    | ⟨g', h1, _, _, _, h5, _⟩ => ⟨g', h1, h5.trans (by decide)⟩⟩

theorem index_eq_of_tag_eq (u : Util) (c : GroupMetricsCollector) {i j : Nat}
    {g g' : EntityGroup}
    (hi : (listRun u (resolveAll u c.MetricsSink c.PodList))[i]? = some g)
    (hj : (listRun u (resolveAll u c.MetricsSink c.PodList))[j]? = some g')
    (h : g.scopeTag = g'.scopeTag) : i = j := by
  have hnd := nodup_tags_listRun u c
  obtain ⟨hi', ei⟩ := List.getElem?_eq_some.1 hi
  obtain ⟨hj', ej⟩ := List.getElem?_eq_some.1 hj
  have hi2 : i < ((listRun u (resolveAll u c.MetricsSink c.PodList)).map
      EntityGroup.scopeTag).length := by simpa using hi'
  have hj2 : j < ((listRun u (resolveAll u c.MetricsSink c.PodList)).map
      EntityGroup.scopeTag).length := by simpa using hj'
  apply (@List.Nodup.getElem_inj_iff _ _ hnd i hi2 j hj2).1
  simp only [List.getElem_map, ei, ej, h]

theorem resolved_eq_of_uid_eq {u : Util} {sink : EntityMetricSink} {pods : List Pod}
    (hnodup : (pods.map (fun p => p.UID)).Nodup) {r r' : Resolved}
    (hr : r ∈ resolveAll u sink pods) (hr' : r' ∈ resolveAll u sink pods)
    (h : r'.pod.UID = r.pod.UID) : r' = r := by
  obtain ⟨hp, ho⟩ := mem_resolveAll.1 hr
  obtain ⟨hp', ho'⟩ := mem_resolveAll.1 hr'
  have hpod : r'.pod = r.pod := List.inj_on_of_nodup_map hnodup hp' hp h
  rw [hpod, ho] at ho'
  rcases r with ⟨k, n, p⟩
  rcases r' with ⟨k', n', p'⟩
  simp only at hpod ho'
  simp only [Except.ok.injEq, Prod.mk.injEq] at ho'
  rw [hpod, ← ho'.1, ← ho'.2]

/-- C16: in a batch whose pod UIDs are pairwise distinct, the id of a resolvable unit `r`
is a pod-type member of exactly one group of the output, the kind-scoped group of the
owner kind of `r`; and the containers of `r` are added to exactly one instance-scoped
group, the one whose key is the group key of `r`: an instance-scoped group receives the
container ids of the resolvable units of its key and of no other unit, and there is one
instance-scoped group of that key. When `ContainerIdFunc` gives different ids to different
pods, a container id of `r` is a member of an instance-scoped group exactly when the key
of the group is the group key of `r`. -/
theorem unit_contributes_once (u : Util) (c : GroupMetricsCollector) (r : Resolved)
    (hnodup : (c.PodList.map (fun p => p.UID)).Nodup)
    (hr : r ∈ resolveAll u c.MetricsSink c.PodList) :
    (∃ g ∈ CollectGroupMetrics u c, g.name = "" ∧ g.kind = r.ownerKind ∧
        r.pod.UID ∈ g.members .PodType) ∧
    (∀ g ∈ CollectGroupMetrics u c, r.pod.UID ∈ g.members .PodType →
        g.name = "" ∧ g.kind = r.ownerKind) ∧
    (∀ (i j : Nat) (g g' : EntityGroup), (CollectGroupMetrics u c)[i]? = some g →
        (CollectGroupMetrics u c)[j]? = some g' → g.name = "" → g'.name = "" →
        g.kind = g'.kind → i = j) ∧
    (∃ g ∈ CollectGroupMetrics u c, g.name ≠ "" ∧
        g.key = groupKeyOf r.ownerKind r.pod.Namespace r.ownerName) ∧
    (∀ (i j : Nat) (g g' : EntityGroup), (CollectGroupMetrics u c)[i]? = some g →
        (CollectGroupMetrics u c)[j]? = some g' → g.name ≠ "" → g'.name ≠ "" →
        g.key = g'.key → i = j) ∧
    (∀ g ∈ CollectGroupMetrics u c, g.name ≠ "" →
        g.members .ContainerType =
          ((resolveAll u c.MetricsSink c.PodList).filter
            (fun r' => groupKeyOf r'.ownerKind r'.pod.Namespace r'.ownerName = g.key)).flatMap
            (fun r' => containerIds u r'.pod)) ∧
    ((∀ uid uid' i j, u.ContainerIdFunc uid i = u.ContainerIdFunc uid' j → uid = uid') →
      ∀ g ∈ CollectGroupMetrics u c, g.name ≠ "" →
        ∀ i, i < r.pod.Spec.Containers.length →
          (u.ContainerIdFunc r.pod.UID i ∈ g.members .ContainerType ↔
            g.key = groupKeyOf r.ownerKind r.pod.Namespace r.ownerName)) := by
  rw [CollectGroupMetrics_eq_listRun]
  have hn := resolved_names_ne u c
  have hcontent := content_listRun u _ hn
  have hshape := shape_listRun u _ (resolved_ne_empty u c)
  have kind_key : ∀ g ∈ listRun u (resolveAll u c.MetricsSink c.PodList), g.name = "" →
      g.key = g.kind := by
    intro g hg hname
    obtain ⟨-, h | h⟩ := hshape g hg
    · exact h.2
    · exact absurd hname h.1
  have inst_members : ∀ g ∈ listRun u (resolveAll u c.MetricsSink c.PodList), g.name ≠ "" →
      g.members .ContainerType = instMembersOf u (resolveAll u c.MetricsSink c.PodList)
        g.key := by
    intro g hg hname
    have hc := hcontent g hg
    unfold GroupContent at hc
    rw [if_neg hname] at hc
    exact hc.2.1
  refine ⟨?_, ?_, ?_, ?_, ?_, ?_, ?_⟩
  · obtain ⟨g, hg, ht⟩ := exists_group_of_tag (u := u) hn hr
      (t := (true, r.ownerKind)) (by simp [unitTags])
    obtain ⟨hname, hkey⟩ := scopeTag_eq_true_iff.1 ht
    have hc := hcontent g hg
    unfold GroupContent at hc
    rw [if_pos hname] at hc
    refine ⟨g, hg, hname, (kind_key g hg hname).symm.trans hkey, ?_⟩
    rw [hc.1]
    unfold kindPodsOf
    exact List.mem_map.2 ⟨r, List.mem_filter.2 ⟨hr, by simp [hkey]⟩, rfl⟩
  · intro g hg hmem
    have hc := hcontent g hg
    unfold GroupContent at hc
    by_cases hname : g.name = ""
    · rw [if_pos hname] at hc
      rw [hc.1] at hmem
      unfold kindPodsOf at hmem
      obtain ⟨r', hr', huid⟩ := List.mem_map.1 hmem
      obtain ⟨hr1, hr2⟩ := List.mem_filter.1 hr'
      have := resolved_eq_of_uid_eq hnodup hr hr1 huid
      subst this
      have hk : r'.ownerKind = g.key := by simpa using hr2
      exact ⟨hname, (kind_key g hg hname).symm.trans hk.symm⟩
    · rw [if_neg hname] at hc
      rw [hc.1] at hmem
      cases hmem
  · intro i j g g' hi hj hname hname' hkind
    apply index_eq_of_tag_eq u c hi hj
    have e1 := kind_key g (List.getElem?_mem hi) hname
    have e2 := kind_key g' (List.getElem?_mem hj) hname'
    rw [scopeTag_eq_true_iff.2 ⟨hname, rfl⟩, scopeTag_eq_true_iff.2 ⟨hname', rfl⟩, e1, e2,
      hkind]
  · obtain ⟨g, hg, ht⟩ := exists_group_of_tag (u := u) hn hr
      (t := (false, r.groupKey)) (by simp [unitTags])
    exact ⟨g, hg, scopeTag_eq_false_iff.1 ht⟩
  · intro i j g g' hi hj hname hname' hkey
    apply index_eq_of_tag_eq u c hi hj
    rw [scopeTag_eq_false_iff.2 ⟨hname, rfl⟩, scopeTag_eq_false_iff.2 ⟨hname', rfl⟩, hkey]
  · intro g hg hname
    exact inst_members g hg hname
  · intro hinj g hg hname i hi
    rw [inst_members g hg hname]
    unfold instMembersOf
    constructor
    · intro hmem
      obtain ⟨r', hr', hm⟩ := List.mem_flatMap.1 hmem
      obtain ⟨hr1, hr2⟩ := List.mem_filter.1 hr'
      obtain ⟨j, -, hj⟩ := mem_containerIds_iff.1 hm
      have := resolved_eq_of_uid_eq hnodup hr hr1 (hinj _ _ _ _ hj).symm
      subst this
      have hk : r'.groupKey = g.key := by simpa using hr2
      exact hk.symm
    · intro hkey
      exact List.mem_flatMap.2 ⟨r, List.mem_filter.2 ⟨hr, by simp [hkey, Resolved.groupKey]⟩,
        mem_containerIds hi⟩

/-- C16 (witness): the example batch has distinct pod UIDs; the id of pod1 is a pod-type
member of the kind-scoped group of kind `ReplicaSet`. -/
theorem unit_contributes_once_witness :
    (sampleCollector.PodList.map (fun p => p.UID)).Nodup ∧
    (⟨"ReplicaSet", "rs-a", ⟨"uid1", "ns1", "pod1", ⟨[⟨"c1"⟩, ⟨"c2"⟩]⟩⟩⟩ : Resolved) ∈
        resolveAll sampleUtil sampleCollector.MetricsSink sampleCollector.PodList ∧
    ∃ g ∈ CollectGroupMetrics sampleUtil sampleCollector, g.name = "" ∧
      g.kind = "ReplicaSet" ∧ "uid1" ∈ g.members .PodType :=
  ⟨by decide, by decide,
    (unit_contributes_once sampleUtil sampleCollector
      ⟨"ReplicaSet", "rs-a", ⟨"uid1", "ns1", "pod1", ⟨[⟨"c1"⟩, ⟨"c2"⟩]⟩⟩⟩
      (by decide) (by decide)).1⟩

/-! ### Extending the batch -/

theorem GroupExtends_refl (g : EntityGroup) : GroupExtends g g :=
  ⟨rfl, rfl, rfl, fun _ bucket h => ⟨[], by rw [List.append_nil]; exact h⟩⟩

theorem GroupExtends_trans {g g' g'' : EntityGroup} (h1 : GroupExtends g g')
    (h2 : GroupExtends g' g'') : GroupExtends g g'' := by
  obtain ⟨a1, a2, a3, a4⟩ := h1
  obtain ⟨b1, b2, b3, b4⟩ := h2
  refine ⟨b1.trans a1, b2.trans a2, b3.trans a3, ?_⟩
  intro n bucket hb
  obtain ⟨t, ht⟩ := a4 n bucket hb
  obtain ⟨t', ht'⟩ := b4 n _ ht
  exact ⟨t ++ t', by rw [ht', List.append_assoc]⟩

theorem GroupExtends_applyUnit (u : Util) (r : Resolved) (g : EntityGroup) :
    GroupExtends g (applyUnit u r g) := by
  obtain ⟨e1, e2, e3⟩ := applyUnit_header u r g
  refine ⟨e1, e2, e3, ?_⟩
  intro n bucket hb
  unfold applyUnit
  split
  · obtain ⟨-, -, -, -, -, f6⟩ := applyInst_fields u r.pod g
    rw [f6 n, hb]
    split
    · exact ⟨[], by rw [List.append_nil]⟩
    · exact ⟨_, rfl⟩
  · split
    · rw [(applyKind_fields u r.pod g).2.2.2.1, hb]
      exact ⟨[], by rw [List.append_nil]⟩
    · exact ⟨[], by rw [List.append_nil]; exact hb⟩

theorem listStep_eq_map_append (u : Util) (l : List EntityGroup) (r : Resolved) :
    ∃ extra, listStep u l r = l.map (applyUnit u r) ++ extra := by
  simp only [listStep]
  split <;> split
  · exact ⟨[], by rw [List.append_nil]⟩
  · exact ⟨_, List.map_append _ _ _⟩
  · exact ⟨_, List.map_append _ _ _⟩
  · exact ⟨_, by rw [List.map_append, List.map_append, List.append_assoc]⟩

theorem foldl_listStep_extends (u : Util) (rs : List Resolved) (l : List EntityGroup) :
    ∃ (F : EntityGroup → EntityGroup) (extra : List EntityGroup),
      rs.foldl (listStep u) l = l.map F ++ extra ∧ ∀ g, GroupExtends g (F g) := by
  induction rs generalizing l with
  | nil => exact ⟨id, [], by simp, GroupExtends_refl⟩
  | cons r rs ih =>
    obtain ⟨e, he⟩ := listStep_eq_map_append u l r
    obtain ⟨F, extra, hF, hext⟩ := ih (listStep u l r)
    refine ⟨fun g => F (applyUnit u r g), e.map F ++ extra, ?_, ?_⟩
    · rw [List.foldl_cons, hF, he, List.map_append, List.map_map, List.append_assoc]
      rfl
    · intro g
      exact GroupExtends_trans (GroupExtends_applyUnit u r g) (hext _)

/-- C19: collection is monotone under extending the batch. For batches `xs` and `ys` over
the same store, the sequence of `(kind, name, key)` of the groups returned for `xs` is an
initial segment of that returned for `xs` followed by `ys`, and every bucket of a group
returned for `xs` is an initial segment of the bucket of the same name of the group at the
same position in the output for `xs` followed by `ys`. -/
theorem collection_monotone (u : Util) (sink : EntityMetricSink) (w : String)
    (xs ys : List Pod) :
    (∃ t, (CollectGroupMetrics u ⟨xs, sink, w⟩).map (fun g => (g.kind, g.name, g.key)) ++ t =
        (CollectGroupMetrics u ⟨xs ++ ys, sink, w⟩).map (fun g => (g.kind, g.name, g.key))) ∧
    ∀ (i : Nat) (g : EntityGroup), (CollectGroupMetrics u ⟨xs, sink, w⟩)[i]? = some g →
      ∃ g', (CollectGroupMetrics u ⟨xs ++ ys, sink, w⟩)[i]? = some g' ∧
        ∀ n bucket, g.ContainerGroups n = some bucket →
          ∃ t, g'.ContainerGroups n = some (bucket ++ t) := by
  rw [CollectGroupMetrics_eq_listRun, CollectGroupMetrics_eq_listRun]
  simp only [resolveAll_append]
  obtain ⟨F, extra, hF, hext⟩ := foldl_listStep_extends u (resolveAll u sink ys)
    (listRun u (resolveAll u sink xs))
  have hrun : listRun u (resolveAll u sink xs ++ resolveAll u sink ys) =
      (listRun u (resolveAll u sink xs)).map F ++ extra := by
    rw [← hF]
    simp [listRun, List.foldl_append]
  rw [hrun]
  constructor
  · refine ⟨extra.map (fun g => (g.kind, g.name, g.key)), ?_⟩
    rw [List.map_append, List.map_map]
    congr 1
    apply List.map_congr_left
    intro g _
    obtain ⟨a1, a2, a3, -⟩ := hext g
    simp [a1, a2, a3]
  · intro i g hi
    have hlt : i < ((listRun u (resolveAll u sink xs)).map F).length := by
      rcases Nat.lt_or_ge i (listRun u (resolveAll u sink xs)).length with h | h
      · simpa using h
      · rw [List.getElem?_eq_none h] at hi
        cases hi
    refine ⟨F g, ?_, (hext g).2.2.2⟩
    rw [List.getElem?_append_left hlt, List.getElem?_map, hi]
    rfl

end Kubeturbo
